import Mathlib

/-!
Verification of the Reader Elf repository (reader_elf.py, text_cleaner.py).

Strings are modelled as `List Char`.  The text-processing functions of
`text_cleaner.py` and the paragraph segmentation of `reader_elf.py` are
embedded directly; regex operations are embedded by their matching semantics
on character lists (ASCII-focused models of Python's case folding and
character classes, plus the common Unicode whitespace code points).

The stateful streaming loop `inprocess_stream` of `reader_elf.py` is embedded
as a pure function from an environment oracle (import availability, model
load outcome, per-paragraph generation results, playback outcomes) to an exit
result plus a trace of observable events (stderr messages, playback calls,
temp-file operations).
-/

namespace ReaderElf

/-- Dropping a prefix by a predicate never lengthens a list (termination
helper). -/
theorem length_dropWhile_le {α : Type} (p : α → Bool) (l : List α) :
    (l.dropWhile p).length ≤ l.length :=
  (List.dropWhile_sublist _).length_le

/-- Model of Python `str.lower` for ASCII letters (other code points are kept
unchanged; the repository's heading and page-number patterns are ASCII). -/
def pyLower (c : Char) : Char :=
  if 'A' ≤ c ∧ c ≤ 'Z' then Char.ofNat (c.toNat + 32) else c

/-- Model of Python whitespace (`str.isspace` / regex `\s`): ASCII whitespace
plus the Unicode whitespace code points. -/
def pyIsSpace (c : Char) : Bool :=
  let n := c.toNat
  n = 0x20 || n = 0x09 || n = 0x0a || n = 0x0d || n = 0x0b || n = 0x0c ||
  (0x1c ≤ n && n ≤ 0x1f) || n = 0x85 || n = 0xa0 || n = 0x1680 ||
  (0x2000 ≤ n && n ≤ 0x200a) || n = 0x2028 || n = 0x2029 || n = 0x202f ||
  n = 0x205f || n = 0x3000

/-- Python `str.strip()` with no argument: drop leading and trailing
whitespace. -/
def pyStrip (l : List Char) : List Char :=
  ((l.dropWhile pyIsSpace).reverse.dropWhile pyIsSpace).reverse

/-- Characters treated as line boundaries by Python `str.splitlines`. -/
def isLineBound (c : Char) : Bool :=
  let n := c.toNat
  n = 0x0a || n = 0x0d || n = 0x0b || n = 0x0c || n = 0x1c || n = 0x1d ||
  n = 0x1e || n = 0x85 || n = 0x2028 || n = 0x2029

/-- Worker for `splitlinesPy`; `acc` is the current line, reversed; a CRLF
pair is a single boundary. -/
def slGo : List Char → List Char → List (List Char)
  | acc, [] => if acc.isEmpty then [] else [acc.reverse]
  | acc, '\r' :: '\n' :: rest => acc.reverse :: slGo [] rest
  | acc, c :: rest =>
    if c = '\r' || isLineBound c then acc.reverse :: slGo [] rest
    else slGo (c :: acc) rest

/-- Python `str.splitlines` modelled on character lists. -/
def splitlinesPy (l : List Char) : List (List Char) := slGo [] l

/-- ASCII decimal digit, the model of regex `\d`. -/
def isDigitCh (c : Char) : Bool := '0' ≤ c && c ≤ '9'

/-- The literal word `page` as a character list. -/
def pageWord : List Char := ['p', 'a', 'g', 'e']

/-- Model of `re.fullmatch(r'(page\s+\d+)|\d{1,4}', s)` used by
`remove_headers_footers` on the lowercased stripped line. -/
def isPageNum (s : List Char) : Bool :=
  (pageWord.isPrefixOf s &&
    (let r := s.drop 4
     let sp := r.takeWhile pyIsSpace
     let d := r.dropWhile pyIsSpace
     !sp.isEmpty && !d.isEmpty && d.all isDigitCh)) ||
  (!s.isEmpty && s.length ≤ 4 && s.all isDigitCh)

def isAsciiLowerCh (c : Char) : Bool := 'a' ≤ c && c ≤ 'z'

def isAsciiUpperCh (c : Char) : Bool := 'A' ≤ c && c ≤ 'Z'

/-- Model of Python `str.isupper` restricted to ASCII cased characters: at
least one cased character and no lowercase cased character. -/
def isUpperPy (s : List Char) : Bool :=
  s.any (fun c => isAsciiUpperCh c || isAsciiLowerCh c) &&
  s.all (fun c => !isAsciiLowerCh c)

/-- Worker for `wordCount` with a structural fuel parameter; every step
consumes at least one character per unit of fuel, so with fuel equal to the
input length the fuel never runs out. -/
def wordCountGo : Nat → List Char → Nat
  | 0, _ => 0
  | _, [] => 0
  | fuel + 1, c :: rest =>
    if pyIsSpace c then wordCountGo fuel rest
    else 1 + wordCountGo fuel (rest.dropWhile (fun d => !pyIsSpace d))

/-- Number of words produced by Python `s.split()` (whitespace-run split). -/
def wordCount (l : List Char) : Nat := wordCountGo l.length l

/-- Line filter of `text_cleaner.remove_headers_footers`: keep blank lines,
drop page-number lines and short all-caps header lines. -/
def keepLine (ln : List Char) : Bool :=
  let s := pyStrip ln
  if s.isEmpty then true
  else if isPageNum (s.map pyLower) then false
  else if isUpperPy s && wordCount s ≤ 6 then false
  else true

/-- Embedding of `text_cleaner.remove_headers_footers`. -/
def remove_headers_footers (text : List Char) : List Char :=
  List.intercalate ['\n'] ((splitlinesPy text).filter keepLine)

/-- ASCII model of regex `\w`: letters, digits, underscore. -/
def isWordCh (c : Char) : Bool :=
  ('a' ≤ c && c ≤ 'z') || ('A' ≤ c && c ≤ 'Z') || ('0' ≤ c && c ≤ '9') ||
  c = '_'

/-- First substitution of `fix_hyphenation`:
`re.sub(r"(\w+)-\n(\w+)", r"\1\2", text)`, joining words hyphenated across a
line break; scanning resumes after the second word of each match. -/
def dehyphGo : Nat → List Char → List Char
  | 0, l => l
  | _, [] => []
  | fuel + 1, c :: rest =>
    if isWordCh c then
      match (c :: rest).dropWhile isWordCh with
      | '-' :: '\n' :: r2 =>
        if (r2.takeWhile isWordCh).isEmpty then
          (c :: rest).takeWhile isWordCh ++ '-' :: '\n' :: dehyphGo fuel r2
        else
          (c :: rest).takeWhile isWordCh ++ r2.takeWhile isWordCh ++
            dehyphGo fuel (r2.dropWhile isWordCh)
      | r1 => (c :: rest).takeWhile isWordCh ++ dehyphGo fuel r1
    else c :: dehyphGo fuel rest

/-- The first substitution applied to a whole string: fuel equal to the
length suffices because every recursive step consumes at least one
character. -/
def dehyph (l : List Char) : List Char := dehyphGo l.length l

/-- Punctuation protecting a newline in the second substitution of
`fix_hyphenation` (the negative lookbehind class). -/
def punctBefore (c : Char) : Bool :=
  c = '.' || c = '!' || c = '?' || c = ';' || c = ':' ||
  c = Char.ofNat 34 || c = Char.ofNat 39

/-- Second substitution of `fix_hyphenation`:
`re.sub(r"(?<![\.\!\?;:\"\'])\n", " ", text)`; `prev` is the character of the
original string just before the current position. -/
def softWrap : Option Char → List Char → List Char
  | _, [] => []
  | prev, c :: rest =>
    if c = '\n' then
      (if (match prev with | some p => punctBefore p | none => false) then '\n'
       else ' ') :: softWrap (some c) rest
    else c :: softWrap (some c) rest

/-- Embedding of `text_cleaner.fix_hyphenation`. -/
def fix_hyphenation (text : List Char) : List Char :=
  softWrap none (dehyph text)

/-- Character class `[ \t ]` of `collapse_whitespace`. -/
def isHWs (c : Char) : Bool := c = ' ' || c = '\t' || c.toNat = 0xa0

/-- Run-collapsing substitution `re.sub(r"[ \t ]+", " ", text)`. -/
def collapseRunsGo : Nat → List Char → List Char
  | 0, l => l
  | _, [] => []
  | fuel + 1, c :: rest =>
    if isHWs c then ' ' :: collapseRunsGo fuel (rest.dropWhile isHWs)
    else c :: collapseRunsGo fuel rest

/-- The run-collapsing substitution on a whole string, with fuel equal to the
length (each step consumes at least one character). -/
def collapseRuns (l : List Char) : List Char := collapseRunsGo l.length l

/-- Embedding of `text_cleaner.collapse_whitespace`. -/
def collapse_whitespace (text : List Char) : List Char :=
  pyStrip (collapseRuns text)

/-- Embedding of `text_cleaner.clean_text`. -/
def clean_text (text : List Char) : List Char :=
  collapse_whitespace (fix_hyphenation (remove_headers_footers text))

/-- The heading alternatives of the `split_notes` regex.  The two longer
alternatives (`next steps & polishing`, `edge cases and next improvements`)
extend these and are subsumed for deciding where a match can start. -/
def hdEdge : List Char := ['e', 'd', 'g', 'e', ' ', 'c', 'a', 's', 'e', 's']

def hdNotes : List Char := ['n', 'o', 't', 'e', 's']

def hdNext : List Char := ['n', 'e', 'x', 't', ' ', 's', 't', 'e', 'p', 's']

/-- Does one of the heading alternatives start here (case-insensitive)? -/
def headingHere (l : List Char) : Bool :=
  let lw := l.map pyLower
  hdEdge.isPrefixOf lw || hdNotes.isPrefixOf lw || hdNext.isPrefixOf lw

/-- Can the notes-heading regex `\s*(edge cases|notes|next steps|...)` match
starting at this suffix (a possibly empty whitespace run followed by one of
the headings)?  The trailing `.*$` of the pattern always succeeds. -/
def matchesHeading : List Char → Bool
  | [] => false
  | c :: rest => headingHere (c :: rest) || (pyIsSpace c && matchesHeading rest)

/-- Worker for `findNotesIdx`: leftmost multiline-anchored match position of
the heading pattern; `atLS` records whether `p` is a line start. -/
def findNotesIdxGo : List Char → Nat → Bool → Option Nat
  | [], _, _ => none
  | c :: rest, p, atLS =>
    if atLS && matchesHeading (c :: rest) then some p
    else findNotesIdxGo rest (p + 1) (c == '\n')

/-- Position of `m.start()` for
`re.compile(r'(?im)^\s*(edge cases|notes|next steps|...)').search(text)`. -/
def findNotesIdx (text : List Char) : Option Nat := findNotesIdxGo text 0 true

/-- Python `before.rstrip('\n')`: drop trailing newlines only. -/
def rstripNL (l : List Char) : List Char :=
  (l.reverse.dropWhile (fun c => c == '\n')).reverse

/-- Python `s.lstrip('\n')`: drop leading newlines only. -/
def lstripNL (l : List Char) : List Char := l.dropWhile (fun c => c == '\n')

/-- Worker for `splitParas2`: `re.split(r"\n{2,}", s)` splits on maximal runs
of two or more newlines; `acc` is the current segment, reversed. -/
def splitParas2Go : Nat → List Char → List Char → List (List Char)
  | 0, acc, _ => [acc.reverse]
  | _, acc, [] => [acc.reverse]
  | fuel + 1, acc, c :: rest =>
    if c = '\n' && !(rest.takeWhile (fun d => d == '\n')).isEmpty then
      acc.reverse ::
        splitParas2Go fuel [] (rest.dropWhile (fun d => d == '\n'))
    else splitParas2Go fuel (c :: acc) rest

/-- Paragraph split used by the `has_long_par` heuristic of `split_notes`;
fuel equal to the length suffices since each step consumes at least one
character. -/
def splitParas2 (l : List Char) : List (List Char) :=
  splitParas2Go l.length [] l

/-- Embedding of `text_cleaner.split_notes` (lines 45-82): find the heading,
apply the long-paragraph and position heuristics, and split with the
trailing/leading newlines stripped from the two sides. -/
def split_notes (text : List Char) : List Char × List Char :=
  match findNotesIdx text with
  | none => (text, [])
  | some idx =>
    let before := text.take idx
    let hasLongPar := (splitParas2 before).any (fun p => 80 ≤ (pyStrip p).length)
    if hasLongPar then (text, [])
    else if idx ≤ 2000 || before.count '\n' ≤ 20 then
      (rstripNL before, lstripNL (text.drop idx))
    else (text, [])

/-- Worker for `paraSplit`: the separator regex `\n\s*\n+` (reader_elf.py
line 174) matches at a newline whose following whitespace run contains a
second newline; the greedy match ends just after the last newline of the
run. -/
def paraSepGo : Nat → List Char → List Char → List (List Char)
  | 0, acc, _ => [acc.reverse]
  | _, acc, [] => [acc.reverse]
  | fuel + 1, acc, c :: rest =>
    if c = '\n' && (rest.takeWhile pyIsSpace).any (fun d => d == '\n') then
      acc.reverse ::
        paraSepGo fuel []
          (rest.drop
            ((rest.takeWhile pyIsSpace).length -
              ((rest.takeWhile pyIsSpace).reverse.takeWhile
                (fun d => !(d == '\n'))).length))
    else paraSepGo fuel (c :: acc) rest

/-- Paragraph segmentation of `inprocess_stream` (line 174): split on the
blank-line regex, strip each piece, keep the non-empty ones; fuel equal to
the length suffices since each step consumes at least one character. -/
def paraSplit (text : List Char) : List (List Char) :=
  ((paraSepGo text.length [] text).map pyStrip).filter (fun p => !p.isEmpty)

/-- Exit outcome of a run: a normal return code, or an exception escaping
`inprocess_stream` (possible only when writing the temp WAV file fails). -/
inductive Res
  | ret (code : Nat)
  | exn
  deriving DecidableEq, Repr

/-- Stderr messages of `inprocess_stream` that the claims refer to. -/
inductive Msg
  | generating (i n : Nat)
  | errDeps
  | errNoLoader
  | errLoadFailed
  | errGenFailed
  | errNoAudio
  | errBadFormat
  | errAfplayMissing
  | errPlaybackFailed
  deriving DecidableEq, Repr

/-- Observable events of `inprocess_stream`.  Playback buffers are sample
lists; `i` is the 1-based paragraph index and `j` the 0-based index of a
streamed sub-chunk within its paragraph. -/
inductive Ev
  | msg (m : Msg)
  | loadAttempt
  | resetCall (i : Nat)
  | pygamePlayStart (i j : Nat) (buf : List Int) (sr : Nat)
  | pygamePlayEnd (i j : Nat)
  | bufferFallback (i j : Nat) (buf : List Int)
  | tempCreate (i : Nat)
  | afplayCall (i : Nat) (buf : List Int) (sr : Nat)
  | afplayDone (i : Nat)
  | tempRemove (i : Nat)
  deriving DecidableEq, Repr

/-- One streamed result yielded by `model_obj.generate`: an audio chunk and
an optional `sample_rate` attribute (line 219-220). -/
structure SubRes where
  audio : List Int
  hasRate : Bool
  rate : Nat
  deriving DecidableEq, Repr

/-- Outcome of one `generate` call in the loader path: the sub-results
yielded, and whether the generator raises after yielding them (caught by the
handler of lines 253-255). -/
structure GenOut where
  subs : List SubRes
  raises : Bool
  deriving DecidableEq, Repr

/-- External-world oracle for `inprocess_stream`: import availability, model
load outcome, per-paragraph generation results, and playback outcomes.
`modelHasRate`/`modelRate` model the `sample_rate` attribute read at line 164
(its value is overwritten at line 180 because `tts` is `None` in the loader
path, so it is unused); `ttsHasRate`/`ttsRate` model `getattr(tts,
'sample_rate', 22050)` at line 180 in the TTS-class path. -/
structure Env where
  sfNumpyOk : Bool
  pygameOk : Bool
  hasTTSClass : Bool
  hasLoader : Bool
  loadOk : Bool
  ttsHasRate : Bool
  ttsRate : Nat
  modelHasRate : Bool
  modelRate : Nat
  resetAvail : Bool
  gen : Nat → GenOut
  encodeFail : Nat → Nat → Bool
  playFail : Nat → Nat → Bool
  ttsCallOk : Nat → Bool
  ttsAudio : Nat → List Int
  fileWriteFail : Nat → Bool
  afplayMissing : Bool
  afplayFail : Nat → Bool

/-- Which synthesis path was resolved: the TTS class (lines 146-158) or the
lower-level `load_model` object (lines 159-166). -/
inductive Mode
  | ttsClass
  | modelObj
  deriving DecidableEq, Repr

/-- Loop state across paragraphs: the current sample rate and the Python
local `arr`, which is unbound (`none`) until first assigned — referencing it
unbound raises, caught at lines 258-262. -/
structure LoopSt where
  sr : Nat
  arr : Option (List Int)
  deriving DecidableEq, Repr

/-- State of the sub-chunk loop (lines 215-237): current sample rate, the
`arr_list` fallback accumulation, and the `received` flag. -/
structure SubSt where
  sr : Nat
  arrList : List (List Int)
  received : Bool
  deriving DecidableEq, Repr

inductive SubOut
  | halt (r : Res)
  | ok (st : SubSt)
  deriving DecidableEq, Repr

inductive StepOut
  | halt (r : Res)
  | next (st : LoopSt)
  deriving DecidableEq, Repr

/-- Temp-file playback step (lines 272-289): create the temp WAV, write it,
run `afplay` blocking, and remove the file in the `finally` block on every
exit path.  A failing write propagates its exception (`Res.exn`) after the
`finally` runs; a missing player returns 7; a failing player returns 8. -/
def playFile (env : Env) (i : Nat) (buf : List Int) (sr : Nat) :
    List Ev × Option Res :=
  if env.fileWriteFail i then
    ([.tempCreate i, .tempRemove i], some .exn)
  else if env.afplayMissing then
    ([.tempCreate i, .msg .errAfplayMissing, .tempRemove i], some (.ret 7))
  else if env.afplayFail i then
    ([.tempCreate i, .afplayCall i buf sr, .msg .errPlaybackFailed,
      .tempRemove i], some (.ret 8))
  else
    ([.tempCreate i, .afplayCall i buf sr, .afplayDone i, .tempRemove i],
      none)

/-- Consumption of the streaming generate results for paragraph `i` (lines
215-237): per sub-chunk, update the sample rate, then either play via pygame
(write to an in-memory WAV, play, poll busy until finished — the play-start
and play-end events are adjacent because the busy-wait blocks), fall back to
buffering if the play step raises, or buffer when pygame is unavailable.  A
failing in-memory WAV write escapes to the outer handler (return 5). -/
def subLoop (env : Env) (i : Nat) : Nat → SubSt → List SubRes → List Ev × SubOut
  | _, st, [] => ([], .ok st)
  | j, st, sub :: rest =>
    let sr := if sub.hasRate then sub.rate else st.sr
    if env.pygameOk then
      if env.encodeFail i j then
        ([.msg .errGenFailed], .halt (.ret 5))
      else if env.playFail i j then
        (.bufferFallback i j sub.audio ::
          (subLoop env i (j + 1)
            { sr := sr, arrList := st.arrList ++ [sub.audio],
              received := true } rest).1,
         (subLoop env i (j + 1)
            { sr := sr, arrList := st.arrList ++ [sub.audio],
              received := true } rest).2)
      else
        (.pygamePlayStart i j sub.audio sr :: .pygamePlayEnd i j ::
          (subLoop env i (j + 1)
            { sr := sr, arrList := st.arrList, received := true } rest).1,
         (subLoop env i (j + 1)
            { sr := sr, arrList := st.arrList, received := true } rest).2)
    else
      subLoop env i (j + 1)
        { sr := sr, arrList := st.arrList ++ [sub.audio], received := true }
        rest

/-- State-reset attempt before a non-first paragraph (lines 183-194): only
the TTS-class path has a non-`None` `tts` object to call a reset on; in the
loader path `getattr(None, name, None)` yields nothing callable. -/
def resetEvs (env : Env) (mode : Mode) (i : Nat) : List Ev :=
  if 1 < i ∧ mode = Mode.ttsClass ∧ env.resetAvail then [.resetCall i]
  else []

/-- Processing of one paragraph (lines 182-289): optional state reset (only
the TTS-class path has a non-`None` `tts` object), the `Generating i/n`
stderr line, generation, buffering/playback of sub-chunks, the unbound-`arr`
check, the 250 ms silence padding (`int(sample_rate * 0.25)` zeros), and the
temp-file playback. -/
def processPara (env : Env) (mode : Mode) (n i : Nat) (st : LoopSt) :
    List Ev × StepOut :=
  let resetEvs : List Ev := ReaderElf.resetEvs env mode i
  let genEv : Ev := .msg (.generating i n)
  match mode with
  | .modelObj =>
    let sub := subLoop env i 0
      { sr := st.sr, arrList := [], received := false } (env.gen i).subs
    match sub.2 with
    | .halt r => (resetEvs ++ genEv :: sub.1, .halt r)
    | .ok sst =>
      if (env.gen i).raises then
        (resetEvs ++ genEv :: sub.1 ++ [.msg .errGenFailed], .halt (.ret 5))
      else if !sst.received then
        (resetEvs ++ genEv :: sub.1 ++ [.msg .errNoAudio], .halt (.ret 5))
      else
        match (if env.pygameOk then st.arr else some sst.arrList.flatten) with
        | none =>
          (resetEvs ++ genEv :: sub.1 ++ [.msg .errBadFormat],
            .halt (.ret 6))
        | some a =>
          let padded := a ++ List.replicate (sst.sr / 4) 0
          match (playFile env i padded sst.sr).2 with
          | some r =>
            (resetEvs ++ genEv :: sub.1 ++ (playFile env i padded sst.sr).1,
              .halt r)
          | none =>
            (resetEvs ++ genEv :: sub.1 ++ (playFile env i padded sst.sr).1,
              .next { sr := sst.sr, arr := some padded })
  | .ttsClass =>
    if env.ttsCallOk i then
      let padded := env.ttsAudio i ++ List.replicate (st.sr / 4) 0
      match (playFile env i padded st.sr).2 with
      | some r => (resetEvs ++ genEv :: (playFile env i padded st.sr).1, .halt r)
      | none =>
        (resetEvs ++ genEv :: (playFile env i padded st.sr).1,
          .next { sr := st.sr, arr := some padded })
    else (resetEvs ++ [genEv, .msg .errGenFailed], .halt (.ret 5))

/-- The main paragraph loop (line 182): strictly sequential, one paragraph at
a time; a halting paragraph ends the run at once. -/
def streamLoop (env : Env) (mode : Mode) (n : Nat) :
    Nat → LoopSt → List (List Char) → Res × List Ev
  | _, _, [] => (.ret 0, [])
  | i, st, _ :: rest =>
    match (processPara env mode n i st).2 with
    | .halt r => (r, (processPara env mode n i st).1)
    | .next st' =>
      ((streamLoop env mode n (i + 1) st' rest).1,
       (processPara env mode n i st).1 ++
         (streamLoop env mode n (i + 1) st' rest).2)

/-- Embedding of `inprocess_stream` (reader_elf.py lines 49-303): dependency
check (return 2), backend resolution (return 3 when neither the TTS class nor
the loader exists), model load (return 4 on failure), then paragraph
segmentation — an empty segmentation returns 0 — and the paragraph loop.
The initial sample rate is `getattr(tts, 'sample_rate', 22050)` (line 180):
in the loader path `tts` is `None`, so it is 22050 regardless of the model's
rate read at line 164. -/
def inprocess_stream (env : Env) (text : List Char) : Res × List Ev :=
  if !env.sfNumpyOk then (.ret 2, [.msg .errDeps])
  else if env.hasTTSClass then
    if !env.loadOk then (.ret 4, [.loadAttempt, .msg .errLoadFailed])
    else
      let paras := paraSplit text
      if paras.isEmpty then (.ret 0, [.loadAttempt])
      else
        let sr0 := if env.ttsHasRate then env.ttsRate else 22050
        ((streamLoop env .ttsClass paras.length 1 { sr := sr0, arr := none }
            paras).1,
         .loadAttempt ::
           (streamLoop env .ttsClass paras.length 1 { sr := sr0, arr := none }
             paras).2)
  else if !env.hasLoader then (.ret 3, [.msg .errNoLoader])
  else if !env.loadOk then (.ret 4, [.loadAttempt, .msg .errLoadFailed])
  else
    let paras := paraSplit text
    if paras.isEmpty then (.ret 0, [.loadAttempt])
    else
      ((streamLoop env .modelObj paras.length 1 { sr := 22050, arr := none }
          paras).1,
       .loadAttempt ::
         (streamLoop env .modelObj paras.length 1 { sr := 22050, arr := none }
           paras).2)

/-- Exit code of `call_marvis_stream` (lines 26-46): 2 when the mlx-audio
module is missing, otherwise the subprocess return code (0 on success, the
nonzero code re-raised by `check=True` and returned at line 46). -/
def callMarvisCode (mlxMissing : Bool) (subprocCode : Nat) : Nat :=
  if mlxMissing then 2 else subprocCode

/-- Environment for a whole `main` run: the streaming oracle plus the
external-subprocess outcomes. -/
structure MainEnv where
  stream : Env
  mlxMissing : Bool
  subprocCode : Nat

/-- Result of a `main` run: the exit result, the text handed to the TTS
layer (`none` when no backend call is made), and the streaming events. -/
structure MainOut where
  res : Res
  sent : Option (List Char)
  evs : List Ev

/-- Embedding of `main` (lines 306-358) after the input text has been read:
notes splitting, the prefer-main-text rule, the speak-the-notes fallback when
the main text strips to empty, the zero-content early success, cleaning, and
dispatch to the in-process or external backend. -/
def mainRun (menv : MainEnv) (inproc : Bool) (raw : List Char) : MainOut :=
  let mt := (split_notes raw).1
  let nt := (split_notes raw).2
  let content := pyStrip mt
  if content.isEmpty then
    if nt.isEmpty then { res := .ret 0, sent := none, evs := [] }
    else
      let cleaned := clean_text (pyStrip nt)
      if inproc then
        { res := (inprocess_stream menv.stream cleaned).1,
          sent := some cleaned,
          evs := (inprocess_stream menv.stream cleaned).2 }
      else
        { res := .ret (callMarvisCode menv.mlxMissing menv.subprocCode),
          sent := some cleaned, evs := [] }
  else
    let cleaned := clean_text content
    if inproc then
      { res := (inprocess_stream menv.stream cleaned).1,
        sent := some cleaned,
        evs := (inprocess_stream menv.stream cleaned).2 }
    else
      { res := .ret (callMarvisCode menv.mlxMissing menv.subprocCode),
        sent := some cleaned, evs := [] }

/-- A playback event with its chunk key: pygame sub-chunk `j` of paragraph
`i` has key `(i, j + 1)`, the per-paragraph temp-file play has key `(i, 0)`.
Keys are ordered lexicographically, following input order. -/
inductive PlayEv
  | start (k : Nat × Nat)
  | fin (k : Nat × Nat)
  deriving DecidableEq, Repr

/-- Projection of a trace event to its playback event, if any. -/
def playOf : Ev → Option PlayEv
  | .pygamePlayStart i j _ _ => some (.start (i, j + 1))
  | .pygamePlayEnd i j => some (.fin (i, j + 1))
  | .afplayCall i _ _ => some (.start (i, 0))
  | .afplayDone i => some (.fin (i, 0))
  | _ => none

/-- The playback events of a trace, in trace order. -/
def plays (evs : List Ev) : List PlayEv := evs.filterMap playOf

/-- Strict lexicographic order on chunk keys. -/
def keyLt (a b : Nat × Nat) : Bool :=
  decide (a.1 < b.1 ∨ (a.1 = b.1 ∧ a.2 < b.2))

/-- Ordering recognizer: playback events occur as adjacent
(start `k`, finish `k`) pairs with strictly increasing keys — each play
begins only after the previous one finished, in input order.  A final
unmatched start is allowed: it is a playback during which the run aborted,
after which nothing else plays. -/
def okFrom : Nat × Nat → List PlayEv → Bool
  | _, [] => true
  | c, [PlayEv.start k] => keyLt c k
  | c, PlayEv.start k :: PlayEv.fin k' :: rest =>
    keyLt c k && k' == k && okFrom k rest
  | _, _ => false

/-- Stricter recognizer: as `okFrom`, but every started play also finishes
(no trailing unmatched start). -/
def closedFrom : Nat × Nat → List PlayEv → Bool
  | _, [] => true
  | c, PlayEv.start k :: PlayEv.fin k' :: rest =>
    keyLt c k && k' == k && closedFrom k rest
  | _, _ => false

/-- Projection of a trace event to its temp-file event: `(true, i)` for the
creation of paragraph `i`'s temp WAV, `(false, i)` for its removal. -/
def tempOf : Ev → Option (Bool × Nat)
  | .tempCreate i => some (true, i)
  | .tempRemove i => some (false, i)
  | _ => none

/-- The temp-file events of a trace, in trace order. -/
def tempEvs (evs : List Ev) : List (Bool × Nat) := evs.filterMap tempOf

/-- Balance recognizer for temp files: every creation is followed (among
temp-file events) by the removal of the same file, with nothing left open at
the end of the run. -/
def tempBal : List (Bool × Nat) → Bool
  | [] => true
  | (true, i) :: (false, i') :: rest => i == i' && tempBal rest
  | _ => false

/-- Per-chunk success conditions in the loader path without pygame: the
generator neither raises nor yields zero audio, and the temp-file playback of
the paragraph succeeds. -/
def paraGood (env : Env) (j : Nat) : Prop :=
  (env.gen j).raises = false ∧ (env.gen j).subs ≠ [] ∧
  env.fileWriteFail j = false ∧ env.afplayMissing = false ∧
  env.afplayFail j = false

/-- Per-chunk success conditions in the TTS-class path: the synthesis call
does not raise and the temp-file playback of the paragraph succeeds. -/
def paraGoodTts (env : Env) (j : Nat) : Prop :=
  env.ttsCallOk j = true ∧ env.fileWriteFail j = false ∧
  env.afplayMissing = false ∧ env.afplayFail j = false

/-- Shape invariant for C5: any `afplayCall` event carries a buffer ending in
`sample_rate / 4` zero samples (the 250 ms silence padding). -/
def padShape (ev : Ev) : Prop :=
  ∀ i buf sr, ev = Ev.afplayCall i buf sr →
    ∃ pre, buf = pre ++ List.replicate (sr / 4) 0

/-- A loader-path environment whose generation always succeeds with one
sub-chunk of two samples at rate 8, with working temp-file playback and no
pygame. -/
def envOkNoPg : Env :=
  { sfNumpyOk := true, pygameOk := false, hasTTSClass := false,
    hasLoader := true, loadOk := true, ttsHasRate := false, ttsRate := 0,
    modelHasRate := false, modelRate := 0, resetAvail := false,
    gen := fun _ => { subs := [{ audio := [5, 6], hasRate := true, rate := 8 }],
                      raises := false },
    encodeFail := fun _ _ => false, playFail := fun _ _ => false,
    ttsCallOk := fun _ => true, ttsAudio := fun _ => [1],
    fileWriteFail := fun _ => false, afplayMissing := false,
    afplayFail := fun _ => false }

/-- Loader-path environment whose generator raises on every paragraph. -/
def envGenRaises : Env :=
  { envOkNoPg with gen := fun _ => { subs := [], raises := true } }

/-- TTS-class environment whose synthesis calls succeed but return a
zero-length buffer; sample rate 4 keeps the silence padding to one zero
sample. -/
def envC2tts : Env :=
  { envOkNoPg with
    hasTTSClass := true,
    ttsHasRate := true,
    ttsRate := 4,
    ttsAudio := fun _ => [] }

/-- Loader-path environment with pygame available whose generator raises at
once. -/
def envC2pg : Env :=
  { envGenRaises with pygameOk := true }

/-- TTS-class environment whose synthesis call raises on every paragraph. -/
def envC2ttsFail : Env :=
  { envOkNoPg with
    hasTTSClass := true,
    ttsCallOk := fun _ => false }

/-- Pygame environment for C3: one sub-chunk `[9]`, whose pygame play step
fails, so it is buffered. -/
def envC3 : Env :=
  { envOkNoPg with
    pygameOk := true,
    gen := fun _ => { subs := [{ audio := [9], hasRate := true, rate := 8 }],
                      raises := false },
    playFail := fun _ _ => true }

/-- Pygame environment for C5: one sub-chunk `[1, 2, 3]` played successfully
via the in-memory mixer. -/
def envC5 : Env :=
  { envOkNoPg with
    pygameOk := true,
    gen := fun _ => { subs := [{ audio := [1, 2, 3], hasRate := false,
                                 rate := 0 }],
                      raises := false } }

/-- Environment with soundfile/numpy missing. -/
def envNoDeps : Env := { envOkNoPg with sfNumpyOk := false }

/-- Environment with mlx_audio importable but no TTS class and no loader. -/
def envNoLoader : Env := { envOkNoPg with hasLoader := false }

/-- Environment whose model load raises. -/
def envLoadFails : Env := { envOkNoPg with loadOk := false }

/-- Main-run environment wrapping `envLoadFails`. -/
def menvLoadFails : MainEnv :=
  { stream := envLoadFails, mlxMissing := false, subprocCode := 0 }

/-- Main-run environment wrapping `envOkNoPg`. -/
def menvOk : MainEnv :=
  { stream := envOkNoPg, mlxMissing := false, subprocCode := 0 }

/-- The input `Page 12`: non-empty, no notes section, but cleaned to empty by
`remove_headers_footers`. -/
def pgIn : List Char := ['P', 'a', 'g', 'e', ' ', '1', '2']

/-- The two-character input `hi`: one paragraph, unchanged by cleaning. -/
def txtHi : List Char := ['h', 'i']

/-- A three-paragraph input. -/
def txtThree : List Char := ['a', '\n', '\n', 'b', '\n', '\n', 'c']

/-- An input containing only a notes heading and text. -/
def txtNotes : List Char := ['N', 'o', 't', 'e', 's', '\n', 'o', 'k']

theorem rstripNL_spec (l : List Char) :
    ∃ a, l = rstripNL l ++ List.replicate a '\n' := by
  refine ⟨(l.reverse.takeWhile (fun c => c == '\n')).length, ?_⟩
  have h1 : l.reverse.takeWhile (fun c => c == '\n') =
      List.replicate (l.reverse.takeWhile (fun c => c == '\n')).length '\n' := by
    apply List.eq_replicate_of_mem
    intro b hb
    have := List.mem_takeWhile_imp hb
    simpa using this
  have h2 : l = (l.reverse.dropWhile (fun c => c == '\n')).reverse ++
      (l.reverse.takeWhile (fun c => c == '\n')).reverse := by
    conv_lhs => rw [← l.reverse_reverse]
    rw [← List.reverse_append, List.takeWhile_append_dropWhile]
  rw [rstripNL]
  conv_lhs => rw [h2]
  congr 1
  rw [h1, List.reverse_replicate]
  simp

theorem lstripNL_spec (l : List Char) :
    ∃ b, l = List.replicate b '\n' ++ lstripNL l := by
  refine ⟨(l.takeWhile (fun c => c == '\n')).length, ?_⟩
  have h1 : l.takeWhile (fun c => c == '\n') =
      List.replicate (l.takeWhile (fun c => c == '\n')).length '\n' := by
    apply List.eq_replicate_of_mem
    intro b hb
    have := List.mem_takeWhile_imp hb
    simpa using this
  conv_lhs =>
    rw [← List.takeWhile_append_dropWhile (p := fun c => c == '\n') (l := l)]
  rw [← h1]
  rfl

theorem findNotesIdxGo_le :
    ∀ (l : List Char) (p : Nat) (b : Bool) (idx : Nat),
      findNotesIdxGo l p b = some idx → idx ≤ p + l.length := by
  intro l
  induction l with
  | nil => intro p b idx h; simp [findNotesIdxGo] at h
  | cons c rest ih =>
    intro p b idx h
    simp only [findNotesIdxGo] at h
    split at h
    · cases h
      simp
    · have := ih (p + 1) (c == '\n') idx h
      simp only [List.length_cons]
      omega

/-- Claim C10: `split_notes` never loses or reorders content — it either
returns the input unchanged with empty notes, or returns the prefix before
the matched heading with trailing newlines stripped and the suffix from the
heading with leading newlines stripped, so that re-inserting the stripped
boundary newlines between the two parts reproduces the input exactly. -/
theorem c10_split_notes_roundtrip (text : List Char) :
    split_notes text = (text, []) ∨
    ∃ idx a b, idx ≤ text.length ∧
      (split_notes text).1 = rstripNL (text.take idx) ∧
      (split_notes text).2 = lstripNL (text.drop idx) ∧
      text = (split_notes text).1 ++ List.replicate a '\n' ++
        List.replicate b '\n' ++ (split_notes text).2 := by
  simp only [split_notes]
  cases hf : findNotesIdx text with
  | none => exact Or.inl rfl
  | some idx =>
    simp only
    split_ifs with h1 h2
    · exact Or.inl rfl
    · right
      obtain ⟨a, ha⟩ := rstripNL_spec (text.take idx)
      obtain ⟨b, hb⟩ := lstripNL_spec (text.drop idx)
      refine ⟨idx, a, b, ?_, rfl, rfl, ?_⟩
      · have := findNotesIdxGo_le text 0 true idx hf
        simpa using this
      · calc text = text.take idx ++ text.drop idx :=
              (List.take_append_drop _ _).symm
          _ = (rstripNL (text.take idx) ++ List.replicate a '\n') ++
              (List.replicate b '\n' ++ lstripNL (text.drop idx)) := by
              rw [← ha, ← hb]
          _ = rstripNL (text.take idx) ++ List.replicate a '\n' ++
              List.replicate b '\n' ++ lstripNL (text.drop idx) := by
              simp only [List.append_assoc]
    · exact Or.inl rfl

/-- Claim C4 (counterexample): the input `Page 12` is empty after cleaning
and has no notes section, yet in in-process mode with a failing model load
the program exits with code 4, not 0 — the empty-input check happens on the
raw main text before cleaning, so this input is not treated as the zero-chunk
no-op success. -/
theorem c4_counterexample :
    clean_text pgIn = [] ∧ (split_notes pgIn).2 = [] ∧
    (mainRun menvLoadFails true pgIn).res = Res.ret 4 ∧
    Res.ret 4 ≠ Res.ret 0 := by decide

/-- Claim C4 (amended): for every input whose main (non-notes) text is empty
or whitespace-only before cleaning and which contains no notes section, the
program returns exit code 0, hands no text to any backend, and performs no
synthesis, load, or playback operation. -/
theorem c4_empty_main_noop (menv : MainEnv) (inproc : Bool) (raw : List Char)
    (h1 : (split_notes raw).2 = []) (h2 : pyStrip (split_notes raw).1 = []) :
    (mainRun menv inproc raw).res = Res.ret 0 ∧
    (mainRun menv inproc raw).sent = none ∧
    (mainRun menv inproc raw).evs = [] := by
  simp [mainRun, h1, h2]

theorem c4_empty_main_noop_witness :
    (mainRun menvOk false [' ']).res = Res.ret 0 ∧
    (mainRun menvOk false [' ']).sent = none ∧
    (mainRun menvOk false [' ']).evs = [] :=
  c4_empty_main_noop menvOk false [' '] (by decide) (by decide)

/-- Claim C3 (code evaluation at the failing input): with the pygame backend
selected and a play failure on the single generated buffer, the buffer is
appended to the fallback list (`bufferFallback` event), but the accumulated
audio is never played — the trace contains no playback event at all — and
the run aborts with exit code 6 at the end of the paragraph instead of
continuing, because the batch-playback variable `arr` is only assigned when
pygame is unavailable and is referenced unbound at line 259. -/
theorem c3_fallback_buffer_never_played :
    inprocess_stream envC3 txtHi =
      (Res.ret 6, [Ev.loadAttempt, Ev.msg (Msg.generating 1 1),
        Ev.bufferFallback 1 0 [9], Ev.msg Msg.errBadFormat]) ∧
    plays (inprocess_stream envC3 txtHi).2 = [] := by decide

/-- Claim C7: the backend-resolution failure modes have distinct nonzero exit
codes — 2 for missing soundfile/numpy, 3 for no TTS class and no loader,
4 for a failing model load — so "dependency missing" (2 or 3) is
distinguishable from "load error" (4). -/
theorem c7_distinct_exit_codes (env : Env) (text : List Char) :
    (env.sfNumpyOk = false → (inprocess_stream env text).1 = Res.ret 2) ∧
    (env.sfNumpyOk = true → env.hasTTSClass = false →
      env.hasLoader = false → (inprocess_stream env text).1 = Res.ret 3) ∧
    (env.sfNumpyOk = true →
      (env.hasTTSClass = true ∨ env.hasLoader = true) →
      env.loadOk = false → (inprocess_stream env text).1 = Res.ret 4) ∧
    Res.ret 2 ≠ Res.ret 4 ∧ Res.ret 3 ≠ Res.ret 4 ∧
    Res.ret 2 ≠ Res.ret 0 ∧ Res.ret 3 ≠ Res.ret 0 ∧ Res.ret 4 ≠ Res.ret 0 := by
  refine ⟨fun h => ?_, fun h1 h2 h3 => ?_, fun h1 h2 h3 => ?_,
    by decide, by decide, by decide, by decide, by decide⟩
  · simp [inprocess_stream, h]
  · simp [inprocess_stream, h1, h2, h3]
  · cases htc : env.hasTTSClass
    · have hld : env.hasLoader = true := by
        rcases h2 with h | h
        · rw [htc] at h; cases h
        · exact h
      simp [inprocess_stream, h1, htc, hld, h3]
    · simp [inprocess_stream, h1, htc, h3]

theorem c7_distinct_exit_codes_witness :
    (inprocess_stream envNoDeps []).1 = Res.ret 2 ∧
    (inprocess_stream envNoLoader []).1 = Res.ret 3 ∧
    (inprocess_stream envLoadFails []).1 = Res.ret 4 :=
  ⟨(c7_distinct_exit_codes envNoDeps []).1 (by decide),
   (c7_distinct_exit_codes envNoLoader []).2.1 (by decide) (by decide)
     (by decide),
   (c7_distinct_exit_codes envLoadFails []).2.2.1 (by decide)
     (Or.inr (by decide)) (by decide)⟩

/-- Claim C8: the text handed to synthesis is the cleaned stripped main
(non-notes) text whenever that strips non-empty; the notes text is handed to
synthesis only when the main text strips to empty and notes are present; and
nothing is handed to synthesis when both are empty. -/
theorem c8_notes_selection (menv : MainEnv) (inproc : Bool) (raw : List Char) :
    ((pyStrip (split_notes raw).1).isEmpty = false →
      (mainRun menv inproc raw).sent =
        some (clean_text (pyStrip (split_notes raw).1))) ∧
    ((pyStrip (split_notes raw).1).isEmpty = true →
      ((split_notes raw).2).isEmpty = false →
      (mainRun menv inproc raw).sent =
        some (clean_text (pyStrip (split_notes raw).2))) ∧
    ((pyStrip (split_notes raw).1).isEmpty = true →
      ((split_notes raw).2).isEmpty = true →
      (mainRun menv inproc raw).sent = none) := by
  refine ⟨fun h => ?_, fun h1 h2 => ?_, fun h1 h2 => ?_⟩
  · cases inproc <;> simp [mainRun, h]
  · cases inproc <;> simp [mainRun, h1, h2]
  · cases inproc <;> simp [mainRun, h1, h2]

theorem c8_notes_selection_witness :
    (mainRun menvOk false txtHi).sent =
      some (clean_text (pyStrip (split_notes txtHi).1)) ∧
    (mainRun menvOk false txtNotes).sent =
      some (clean_text (pyStrip (split_notes txtNotes).2)) ∧
    (mainRun menvOk false [' ']).sent = none :=
  ⟨(c8_notes_selection menvOk false txtHi).1 (by decide),
   (c8_notes_selection menvOk false txtNotes).2.1 (by decide) (by decide),
   (c8_notes_selection menvOk false [' ']).2.2 (by decide) (by decide)⟩

/-- Claim C9: in in-process mode the dependency checks and model load happen
before segmentation, so even for text that segments to zero paragraphs the
load is attempted; a failing load returns the backend code 4 rather than the
zero-chunk success 0, and only a successful load reaches the zero-chunk
success. -/
theorem c9_load_precedes_segmentation (env : Env) (text : List Char)
    (hpar : paraSplit text = []) (hdeps : env.sfNumpyOk = true)
    (hres : env.hasTTSClass = true ∨ env.hasLoader = true) :
    Ev.loadAttempt ∈ (inprocess_stream env text).2 ∧
    (env.loadOk = false → (inprocess_stream env text).1 = Res.ret 4) ∧
    (env.loadOk = true →
      inprocess_stream env text = (Res.ret 0, [Ev.loadAttempt])) ∧
    Res.ret 4 ≠ Res.ret 0 := by
  cases htc : env.hasTTSClass
  · have hld : env.hasLoader = true := by
      rcases hres with h | h
      · rw [htc] at h; cases h
      · exact h
    cases hlo : env.loadOk <;>
      simp [inprocess_stream, hdeps, htc, hld, hlo, hpar]
  · cases hlo : env.loadOk <;>
      simp [inprocess_stream, hdeps, htc, hlo, hpar]

theorem c9_load_precedes_segmentation_witness :
    Ev.loadAttempt ∈ (inprocess_stream envLoadFails [' ']).2 ∧
    (envLoadFails.loadOk = false →
      (inprocess_stream envLoadFails [' ']).1 = Res.ret 4) ∧
    (envLoadFails.loadOk = true →
      inprocess_stream envLoadFails [' '] = (Res.ret 0, [Ev.loadAttempt])) ∧
    Res.ret 4 ≠ Res.ret 0 :=
  c9_load_precedes_segmentation envLoadFails [' '] (by decide) (by decide)
    (Or.inr (by decide))

theorem plays_append (l₁ l₂ : List Ev) :
    plays (l₁ ++ l₂) = plays l₁ ++ plays l₂ := by
  simp [plays]

theorem tempEvs_append (l₁ l₂ : List Ev) :
    tempEvs (l₁ ++ l₂) = tempEvs l₁ ++ tempEvs l₂ := by
  simp [tempEvs]

theorem plays_resetEvs (env : Env) (mode : Mode) (i : Nat) :
    plays (resetEvs env mode i) = [] := by
  rw [resetEvs]
  split <;> simp [plays, playOf]

theorem plays_nil : plays [] = [] := rfl

theorem plays_cons_msg (m : Msg) (l : List Ev) :
    plays (Ev.msg m :: l) = plays l := by simp [plays, playOf]

theorem plays_cons_load (l : List Ev) :
    plays (Ev.loadAttempt :: l) = plays l := by simp [plays, playOf]

theorem plays_cons_reset (i : Nat) (l : List Ev) :
    plays (Ev.resetCall i :: l) = plays l := by simp [plays, playOf]

theorem plays_cons_tempCreate (i : Nat) (l : List Ev) :
    plays (Ev.tempCreate i :: l) = plays l := by simp [plays, playOf]

theorem plays_cons_tempRemove (i : Nat) (l : List Ev) :
    plays (Ev.tempRemove i :: l) = plays l := by simp [plays, playOf]

theorem plays_cons_buffer (i j : Nat) (buf : List Int) (l : List Ev) :
    plays (Ev.bufferFallback i j buf :: l) = plays l := by
  simp [plays, playOf]

theorem plays_cons_afplayCall (i : Nat) (buf : List Int) (sr : Nat)
    (l : List Ev) :
    plays (Ev.afplayCall i buf sr :: l) = PlayEv.start (i, 0) :: plays l := by
  simp [plays, playOf]

theorem plays_cons_afplayDone (i : Nat) (l : List Ev) :
    plays (Ev.afplayDone i :: l) = PlayEv.fin (i, 0) :: plays l := by
  simp [plays, playOf]

theorem plays_cons_pgStart (i j : Nat) (buf : List Int) (sr : Nat)
    (l : List Ev) :
    plays (Ev.pygamePlayStart i j buf sr :: l) =
      PlayEv.start (i, j + 1) :: plays l := by
  simp [plays, playOf]

theorem plays_cons_pgEnd (i j : Nat) (l : List Ev) :
    plays (Ev.pygamePlayEnd i j :: l) = PlayEv.fin (i, j + 1) :: plays l := by
  simp [plays, playOf]

theorem tempEvs_nil : tempEvs [] = [] := rfl

theorem tempEvs_cons_msg (m : Msg) (l : List Ev) :
    tempEvs (Ev.msg m :: l) = tempEvs l := by simp [tempEvs, tempOf]

theorem tempEvs_cons_load (l : List Ev) :
    tempEvs (Ev.loadAttempt :: l) = tempEvs l := by simp [tempEvs, tempOf]

theorem tempEvs_cons_create (i : Nat) (l : List Ev) :
    tempEvs (Ev.tempCreate i :: l) = (true, i) :: tempEvs l := by
  simp [tempEvs, tempOf]

theorem tempEvs_cons_remove (i : Nat) (l : List Ev) :
    tempEvs (Ev.tempRemove i :: l) = (false, i) :: tempEvs l := by
  simp [tempEvs, tempOf]

theorem tempEvs_cons_afplayCall (i : Nat) (buf : List Int) (sr : Nat)
    (l : List Ev) :
    tempEvs (Ev.afplayCall i buf sr :: l) = tempEvs l := by
  simp [tempEvs, tempOf]

theorem tempEvs_cons_afplayDone (i : Nat) (l : List Ev) :
    tempEvs (Ev.afplayDone i :: l) = tempEvs l := by simp [tempEvs, tempOf]

theorem tempEvs_resetEvs (env : Env) (mode : Mode) (i : Nat) :
    tempEvs (resetEvs env mode i) = [] := by
  rw [resetEvs]
  split <;> simp [tempEvs, tempOf]

theorem keyLt_mono (c : Nat × Nat) (i j k : Nat) (h : keyLt c (i, j) = true)
    (hjk : j ≤ k) : keyLt c (i, k) = true := by
  have h' : c.1 < i ∨ (c.1 = i ∧ c.2 < j) := of_decide_eq_true h
  exact decide_eq_true
    (h'.imp id (fun hh => ⟨hh.1, lt_of_lt_of_le hh.2 hjk⟩))

theorem keyLt_pair (i j k : Nat) (h : j < k) : keyLt (i, j) (i, k) = true :=
  decide_eq_true (Or.inr ⟨rfl, h⟩)

theorem keyLt_fst (i j m n : Nat) (h : i < m) : keyLt (i, j) (m, n) = true :=
  decide_eq_true (Or.inl h)

theorem closedFrom_okFrom :
    ∀ (l : List PlayEv) (c : Nat × Nat),
      closedFrom c l = true → okFrom c l = true := by
  have H : ∀ (m : Nat) (l : List PlayEv) (c : Nat × Nat), l.length ≤ m →
      closedFrom c l = true → okFrom c l = true := by
    intro m
    induction m with
    | zero =>
      intro l c hl _
      cases l with
      | nil => simp [okFrom]
      | cons a rest => simp at hl
    | succ m ih =>
      intro l c hl h
      cases l with
      | nil => simp [okFrom]
      | cons a l1 =>
        cases a with
        | fin k => simp [closedFrom] at h
        | start k =>
          cases l1 with
          | nil => simp [closedFrom] at h
          | cons b l2 =>
            cases b with
            | start k2 => simp [closedFrom] at h
            | fin k' =>
              simp only [closedFrom, Bool.and_eq_true, beq_iff_eq] at h
              obtain ⟨⟨h1, h2⟩, h3⟩ := h
              have h4 := ih l2 k (by simp at hl; omega) h3
              simp [okFrom, h1, h2, h4]
  exact fun l c => H l.length l c le_rfl

theorem playFile_cases (env : Env) (i : Nat) (buf : List Int) (sr : Nat) :
    playFile env i buf sr = ([.tempCreate i, .tempRemove i], some .exn) ∨
    playFile env i buf sr =
      ([.tempCreate i, .msg .errAfplayMissing, .tempRemove i],
        some (.ret 7)) ∨
    playFile env i buf sr =
      ([.tempCreate i, .afplayCall i buf sr, .msg .errPlaybackFailed,
        .tempRemove i], some (.ret 8)) ∨
    playFile env i buf sr =
      ([.tempCreate i, .afplayCall i buf sr, .afplayDone i, .tempRemove i],
        none) := by
  unfold playFile
  split_ifs <;> simp

theorem subLoop_nopg (env : Env) (i : Nat) (hpg : env.pygameOk = false) :
    ∀ (subs : List SubRes) (j : Nat) (st : SubSt),
      ∃ sst : SubSt, subLoop env i j st subs = ([], SubOut.ok sst) ∧
        sst.received = (st.received || !subs.isEmpty) := by
  intro subs
  induction subs with
  | nil => intro j st; exact ⟨st, rfl, by simp⟩
  | cons sub rest ih =>
    intro j st
    obtain ⟨sst, h1, h2⟩ := ih (j + 1)
      { sr := if sub.hasRate then sub.rate else st.sr,
        arrList := st.arrList ++ [sub.audio], received := true }
    have he : subLoop env i j st (sub :: rest) =
        subLoop env i (j + 1)
          { sr := if sub.hasRate then sub.rate else st.sr,
            arrList := st.arrList ++ [sub.audio], received := true } rest := by
      simp [subLoop, hpg]
    rw [he, h1]
    exact ⟨sst, rfl, by rw [h2]; simp⟩

theorem subLoop_closed (env : Env) (i : Nat) :
    ∀ (subs : List SubRes) (j : Nat) (st : SubSt) (c : Nat × Nat),
      keyLt c (i, j + 1) = true →
      closedFrom c (plays (subLoop env i j st subs).1) = true := by
  intro subs
  induction subs with
  | nil => intro j st c hc; simp [subLoop, plays, closedFrom]
  | cons sub rest ih =>
    intro j st c hc
    cases hpg : env.pygameOk
    · have he : subLoop env i j st (sub :: rest) =
          subLoop env i (j + 1)
            { sr := if sub.hasRate then sub.rate else st.sr,
              arrList := st.arrList ++ [sub.audio], received := true } rest := by
        simp [subLoop, hpg]
      rw [he]
      exact ih (j + 1) _ c (keyLt_mono c i (j + 1) (j + 2) hc (by omega))
    · cases henc : env.encodeFail i j
      · cases hpf : env.playFail i j
        · have he : (subLoop env i j st (sub :: rest)).1 =
              Ev.pygamePlayStart i j sub.audio
                  (if sub.hasRate then sub.rate else st.sr) ::
                Ev.pygamePlayEnd i j ::
                (subLoop env i (j + 1)
                  { sr := if sub.hasRate then sub.rate else st.sr,
                    arrList := st.arrList, received := true } rest).1 := by
            simp [subLoop, hpg, henc, hpf]
          rw [he]
          have h4 := ih (j + 1)
            { sr := if sub.hasRate then sub.rate else st.sr,
              arrList := st.arrList, received := true } (i, j + 1)
            (keyLt_pair i (j + 1) (j + 2) (by omega))
          simp only [plays] at h4 ⊢
          simp only [List.filterMap_cons, playOf]
          simp [closedFrom, hc, h4]
        · have he : (subLoop env i j st (sub :: rest)).1 =
              Ev.bufferFallback i j sub.audio ::
                (subLoop env i (j + 1)
                  { sr := if sub.hasRate then sub.rate else st.sr,
                    arrList := st.arrList ++ [sub.audio],
                    received := true } rest).1 := by
            simp [subLoop, hpg, henc, hpf]
          rw [he]
          have h4 := ih (j + 1)
            { sr := if sub.hasRate then sub.rate else st.sr,
              arrList := st.arrList ++ [sub.audio], received := true } c
            (keyLt_mono c i (j + 1) (j + 2) hc (by omega))
          simp only [plays] at h4 ⊢
          simp only [List.filterMap_cons, playOf]
          exact h4
      · have he : (subLoop env i j st (sub :: rest)).1 =
            [Ev.msg Msg.errGenFailed] := by
          simp [subLoop, hpg, henc]
        rw [he]
        simp [plays, playOf, closedFrom]

theorem tempEvs_subLoop (env : Env) (i : Nat) :
    ∀ (subs : List SubRes) (j : Nat) (st : SubSt),
      tempEvs (subLoop env i j st subs).1 = [] := by
  intro subs
  induction subs with
  | nil => intro j st; simp [subLoop, tempEvs]
  | cons sub rest ih =>
    intro j st
    cases hpg : env.pygameOk
    · have he : subLoop env i j st (sub :: rest) =
          subLoop env i (j + 1)
            { sr := if sub.hasRate then sub.rate else st.sr,
              arrList := st.arrList ++ [sub.audio], received := true } rest := by
        simp [subLoop, hpg]
      rw [he]
      exact ih (j + 1) _
    · cases henc : env.encodeFail i j
      · cases hpf : env.playFail i j
        · have he : (subLoop env i j st (sub :: rest)).1 =
              Ev.pygamePlayStart i j sub.audio
                  (if sub.hasRate then sub.rate else st.sr) ::
                Ev.pygamePlayEnd i j ::
                (subLoop env i (j + 1)
                  { sr := if sub.hasRate then sub.rate else st.sr,
                    arrList := st.arrList, received := true } rest).1 := by
            simp [subLoop, hpg, henc, hpf]
          rw [he]
          have h4 := ih (j + 1)
            { sr := if sub.hasRate then sub.rate else st.sr,
              arrList := st.arrList, received := true }
          simp only [tempEvs] at h4 ⊢
          simp only [List.filterMap_cons, tempOf]
          exact h4
        · have he : (subLoop env i j st (sub :: rest)).1 =
              Ev.bufferFallback i j sub.audio ::
                (subLoop env i (j + 1)
                  { sr := if sub.hasRate then sub.rate else st.sr,
                    arrList := st.arrList ++ [sub.audio],
                    received := true } rest).1 := by
            simp [subLoop, hpg, henc, hpf]
          rw [he]
          have h4 := ih (j + 1)
            { sr := if sub.hasRate then sub.rate else st.sr,
              arrList := st.arrList ++ [sub.audio], received := true }
          simp only [tempEvs] at h4 ⊢
          simp only [List.filterMap_cons, tempOf]
          exact h4
      · have he : (subLoop env i j st (sub :: rest)).1 =
            [Ev.msg Msg.errGenFailed] := by
          simp [subLoop, hpg, henc]
        rw [he]
        simp [tempEvs, tempOf]

theorem processPara_afplay (env : Env) (mode : Mode) (n i : Nat) (st : LoopSt)
    (hm : mode = Mode.ttsClass ∨ env.pygameOk = false) :
    (∃ st', (processPara env mode n i st).2 = StepOut.next st' ∧
      plays (processPara env mode n i st).1 =
        [PlayEv.start (i, 0), PlayEv.fin (i, 0)]) ∨
    (∃ r, (processPara env mode n i st).2 = StepOut.halt r ∧
      (plays (processPara env mode n i st).1 = [] ∨
       plays (processPara env mode n i st).1 = [PlayEv.start (i, 0)] ∨
       plays (processPara env mode n i st).1 =
         [PlayEv.start (i, 0), PlayEv.fin (i, 0)])) := by
  cases mode with
  | ttsClass =>
    cases hc : env.ttsCallOk i
    · right
      refine ⟨Res.ret 5, ?_, Or.inl ?_⟩ <;>
        simp [processPara, hc, plays_append, plays_resetEvs, plays_nil,
          plays_cons_msg]
    · rcases playFile_cases env i
          (env.ttsAudio i ++ List.replicate (st.sr / 4) 0) st.sr with
        h | h | h | h
      · right
        refine ⟨Res.exn, ?_, Or.inl ?_⟩ <;>
          simp [processPara, hc, h, plays_append, plays_resetEvs, plays_nil,
            plays_cons_msg, plays_cons_tempCreate, plays_cons_tempRemove]
      · right
        refine ⟨Res.ret 7, ?_, Or.inl ?_⟩ <;>
          simp [processPara, hc, h, plays_append, plays_resetEvs, plays_nil,
            plays_cons_msg, plays_cons_tempCreate, plays_cons_tempRemove]
      · right
        refine ⟨Res.ret 8, ?_, Or.inr (Or.inl ?_)⟩ <;>
          simp [processPara, hc, h, plays_append, plays_resetEvs, plays_nil,
            plays_cons_msg, plays_cons_tempCreate, plays_cons_tempRemove,
            plays_cons_afplayCall]
      · left
        refine ⟨⟨st.sr,
          some (env.ttsAudio i ++ List.replicate (st.sr / 4) 0)⟩, ?_, ?_⟩ <;>
          simp [processPara, hc, h, plays_append, plays_resetEvs, plays_nil,
            plays_cons_msg, plays_cons_tempCreate, plays_cons_tempRemove,
            plays_cons_afplayCall, plays_cons_afplayDone]
  | modelObj =>
    have hpg : env.pygameOk = false := by
      rcases hm with h | h
      · simp at h
      · exact h
    obtain ⟨sst, hsub, _⟩ := subLoop_nopg env i hpg (env.gen i).subs 0
      { sr := st.sr, arrList := [], received := false }
    cases hraise : (env.gen i).raises
    · cases hrecv : sst.received
      · right
        refine ⟨Res.ret 5, ?_, Or.inl ?_⟩ <;>
          simp [processPara, hsub, hraise, hrecv, plays_append,
            plays_resetEvs, plays_nil, plays_cons_msg]
      · rcases playFile_cases env i
            (sst.arrList.flatten ++ List.replicate (sst.sr / 4) 0) sst.sr with
          h | h | h | h
        · right
          refine ⟨Res.exn, ?_, Or.inl ?_⟩ <;>
            simp [processPara, hsub, hraise, hrecv, hpg, h, plays_append,
              plays_resetEvs, plays_nil, plays_cons_msg,
              plays_cons_tempCreate, plays_cons_tempRemove]
        · right
          refine ⟨Res.ret 7, ?_, Or.inl ?_⟩ <;>
            simp [processPara, hsub, hraise, hrecv, hpg, h, plays_append,
              plays_resetEvs, plays_nil, plays_cons_msg,
              plays_cons_tempCreate, plays_cons_tempRemove]
        · right
          refine ⟨Res.ret 8, ?_, Or.inr (Or.inl ?_)⟩ <;>
            simp [processPara, hsub, hraise, hrecv, hpg, h, plays_append,
              plays_resetEvs, plays_nil, plays_cons_msg,
              plays_cons_tempCreate, plays_cons_tempRemove,
              plays_cons_afplayCall]
        · left
          refine ⟨⟨sst.sr,
            some (sst.arrList.flatten ++ List.replicate (sst.sr / 4) 0)⟩,
            ?_, ?_⟩ <;>
            simp [processPara, hsub, hraise, hrecv, hpg, h, plays_append,
              plays_resetEvs, plays_nil, plays_cons_msg,
              plays_cons_tempCreate, plays_cons_tempRemove,
              plays_cons_afplayCall, plays_cons_afplayDone]
    · right
      refine ⟨Res.ret 5, ?_, Or.inl ?_⟩ <;>
        simp [processPara, hsub, hraise, plays_append, plays_resetEvs,
          plays_nil, plays_cons_msg]

theorem streamLoop_plays_ok (env : Env) (mode : Mode) (n : Nat)
    (hm : mode = Mode.ttsClass ∨ env.pygameOk = false) :
    ∀ (ps : List (List Char)) (i : Nat) (st : LoopSt) (c : Nat × Nat),
      keyLt c (i, 0) = true →
      okFrom c (plays (streamLoop env mode n i st ps).2) = true := by
  intro ps
  induction ps with
  | nil => intro i st c hc; simp [streamLoop, plays_nil, okFrom]
  | cons p rest ih =>
    intro i st c hc
    rcases processPara_afplay env mode n i st hm with
      ⟨st', h2, hp⟩ | ⟨r, h2, hp⟩
    · have he : (streamLoop env mode n i st (p :: rest)).2 =
          (processPara env mode n i st).1 ++
            (streamLoop env mode n (i + 1) st' rest).2 := by
        simp [streamLoop, h2]
      rw [he, plays_append, hp]
      have h4 := ih (i + 1) st' (i, 0) (keyLt_fst i 0 (i + 1) 0 (by omega))
      simp [okFrom, hc, h4]
    · have he : (streamLoop env mode n i st (p :: rest)).2 =
          (processPara env mode n i st).1 := by
        simp [streamLoop, h2]
      rw [he]
      rcases hp with hp | hp | hp <;> rw [hp] <;> simp [okFrom, hc]

theorem processPara_pg_halt (env : Env) (n i : Nat) (st : LoopSt)
    (hpg : env.pygameOk = true) (harr : st.arr = none) :
    ∃ r, (processPara env Mode.modelObj n i st).2 = StepOut.halt r ∧
      ∀ c, keyLt c (i, 1) = true →
        okFrom c (plays (processPara env Mode.modelObj n i st).1) = true := by
  have hsubP : ∀ c, keyLt c (i, 1) = true →
      closedFrom c
        (plays (subLoop env i 0 ⟨st.sr, [], false⟩ (env.gen i).subs).1) =
        true :=
    fun c hc => subLoop_closed env i (env.gen i).subs 0 ⟨st.sr, [], false⟩ c hc
  cases hs2 : (subLoop env i 0 ⟨st.sr, [], false⟩ (env.gen i).subs).2 with
  | halt r =>
    refine ⟨r, ?_, fun c hc => ?_⟩
    · simp [processPara, hs2]
    · have he : (processPara env Mode.modelObj n i st).1 =
          resetEvs env Mode.modelObj i ++ Ev.msg (Msg.generating i n) ::
            (subLoop env i 0 ⟨st.sr, [], false⟩ (env.gen i).subs).1 := by
        simp [processPara, hs2]
      rw [he, plays_append, plays_resetEvs, List.nil_append, plays_cons_msg]
      exact closedFrom_okFrom _ _ (hsubP c hc)
  | ok sst =>
    cases hraise : (env.gen i).raises
    · cases hrecv : sst.received
      · refine ⟨Res.ret 5, ?_, fun c hc => ?_⟩
        · simp [processPara, hs2, hraise, hrecv]
        · have he : (processPara env Mode.modelObj n i st).1 =
              resetEvs env Mode.modelObj i ++ Ev.msg (Msg.generating i n) ::
                ((subLoop env i 0 ⟨st.sr, [], false⟩ (env.gen i).subs).1 ++
                  [Ev.msg Msg.errNoAudio]) := by
            simp [processPara, hs2, hraise, hrecv]
          rw [he, plays_append, plays_resetEvs, List.nil_append,
            plays_cons_msg, plays_append]
          have : plays [Ev.msg Msg.errNoAudio] = [] := by
            rw [plays_cons_msg, plays_nil]
          rw [this, List.append_nil]
          exact closedFrom_okFrom _ _ (hsubP c hc)
      · refine ⟨Res.ret 6, ?_, fun c hc => ?_⟩
        · simp [processPara, hs2, hraise, hrecv, hpg, harr]
        · have he : (processPara env Mode.modelObj n i st).1 =
              resetEvs env Mode.modelObj i ++ Ev.msg (Msg.generating i n) ::
                ((subLoop env i 0 ⟨st.sr, [], false⟩ (env.gen i).subs).1 ++
                  [Ev.msg Msg.errBadFormat]) := by
            simp [processPara, hs2, hraise, hrecv, hpg, harr]
          rw [he, plays_append, plays_resetEvs, List.nil_append,
            plays_cons_msg, plays_append]
          have : plays [Ev.msg Msg.errBadFormat] = [] := by
            rw [plays_cons_msg, plays_nil]
          rw [this, List.append_nil]
          exact closedFrom_okFrom _ _ (hsubP c hc)
    · refine ⟨Res.ret 5, ?_, fun c hc => ?_⟩
      · simp [processPara, hs2, hraise]
      · have he : (processPara env Mode.modelObj n i st).1 =
            resetEvs env Mode.modelObj i ++ Ev.msg (Msg.generating i n) ::
              ((subLoop env i 0 ⟨st.sr, [], false⟩ (env.gen i).subs).1 ++
                [Ev.msg Msg.errGenFailed]) := by
          simp [processPara, hs2, hraise]
        rw [he, plays_append, plays_resetEvs, List.nil_append,
          plays_cons_msg, plays_append]
        have : plays [Ev.msg Msg.errGenFailed] = [] := by
          rw [plays_cons_msg, plays_nil]
        rw [this, List.append_nil]
        exact closedFrom_okFrom _ _ (hsubP c hc)

/-- Claim C1: in every run and for every environment, playback is strictly in
input order and blocking — the playback events of the trace form adjacent
(start, finish) pairs with strictly increasing chunk keys, so chunk i+1's
playback begins only after chunk i's playback has fully completed, with at
most a trailing unmatched start when the run aborts during a playback. -/
theorem c1_playback_order (env : Env) (text : List Char) :
    okFrom (0, 0) (plays (inprocess_stream env text).2) = true := by
  cases hs : env.sfNumpyOk
  · simp [inprocess_stream, hs, plays_nil, plays_cons_msg, okFrom]
  · cases htc : env.hasTTSClass
    · cases hld : env.hasLoader
      · simp [inprocess_stream, hs, htc, hld, plays_nil, plays_cons_msg,
          okFrom]
      · cases hlo : env.loadOk
        · simp [inprocess_stream, hs, htc, hld, hlo, plays_nil,
            plays_cons_msg, plays_cons_load, okFrom]
        · cases hpe : (paraSplit text).isEmpty
          · cases hpg : env.pygameOk
            · have he : (inprocess_stream env text).2 =
                  Ev.loadAttempt ::
                    (streamLoop env Mode.modelObj (paraSplit text).length 1
                      ⟨22050, none⟩ (paraSplit text)).2 := by
                simp [inprocess_stream, hs, htc, hld, hlo, hpe]
              rw [he, plays_cons_load]
              exact streamLoop_plays_ok env Mode.modelObj
                (paraSplit text).length (Or.inr hpg) (paraSplit text) 1
                ⟨22050, none⟩ (0, 0) (keyLt_fst 0 0 1 0 (by omega))
            · obtain ⟨p, rest, hpr⟩ :
                  ∃ p rest, paraSplit text = p :: rest := by
                cases hq : paraSplit text with
                | nil => rw [hq] at hpe; simp at hpe
                | cons a b => exact ⟨a, b, rfl⟩
              have he : (inprocess_stream env text).2 =
                  Ev.loadAttempt ::
                    (streamLoop env Mode.modelObj (paraSplit text).length 1
                      ⟨22050, none⟩ (paraSplit text)).2 := by
                simp [inprocess_stream, hs, htc, hld, hlo, hpe]
              rw [he, plays_cons_load, hpr]
              obtain ⟨r, h2, hok⟩ := processPara_pg_halt env
                (p :: rest).length 1 ⟨22050, none⟩ hpg rfl
              have hloop :
                  (streamLoop env Mode.modelObj (p :: rest).length 1
                    ⟨22050, none⟩ (p :: rest)).2 =
                  (processPara env Mode.modelObj (p :: rest).length 1
                    ⟨22050, none⟩).1 := by
                simp only [streamLoop]
                rw [h2]
              rw [hloop]
              exact hok (0, 0) (keyLt_fst 0 0 1 1 (by omega))
          · simp [inprocess_stream, hs, htc, hld, hlo, hpe, plays_nil,
              plays_cons_load, okFrom]
    · cases hlo : env.loadOk
      · simp [inprocess_stream, hs, htc, hlo, plays_nil, plays_cons_msg,
          plays_cons_load, okFrom]
      · cases hpe : (paraSplit text).isEmpty
        · have he : (inprocess_stream env text).2 =
              Ev.loadAttempt ::
                (streamLoop env Mode.ttsClass (paraSplit text).length 1
                  ⟨if env.ttsHasRate then env.ttsRate else 22050, none⟩
                  (paraSplit text)).2 := by
            simp [inprocess_stream, hs, htc, hlo, hpe]
          rw [he, plays_cons_load]
          exact streamLoop_plays_ok env Mode.ttsClass
            (paraSplit text).length (Or.inl rfl) (paraSplit text) 1
            ⟨if env.ttsHasRate then env.ttsRate else 22050, none⟩ (0, 0)
            (keyLt_fst 0 0 1 0 (by omega))
        · simp [inprocess_stream, hs, htc, hlo, hpe, plays_nil,
            plays_cons_load, okFrom]

theorem tempEvs_playFile (env : Env) (i : Nat) (buf : List Int) (sr : Nat) :
    tempEvs (playFile env i buf sr).1 = [(true, i), (false, i)] := by
  rcases playFile_cases env i buf sr with h | h | h | h <;> rw [h] <;>
    simp [tempEvs_cons_create, tempEvs_cons_remove, tempEvs_cons_msg,
      tempEvs_cons_afplayCall, tempEvs_cons_afplayDone, tempEvs_nil]

theorem processPara_temps (env : Env) (mode : Mode) (n i : Nat)
    (st : LoopSt) :
    tempEvs (processPara env mode n i st).1 = [] ∨
    tempEvs (processPara env mode n i st).1 = [(true, i), (false, i)] := by
  cases mode with
  | ttsClass =>
    cases hc : env.ttsCallOk i
    · left
      simp [processPara, hc, tempEvs_append, tempEvs_resetEvs,
        tempEvs_cons_msg, tempEvs_nil]
    · rcases playFile_cases env i
          (env.ttsAudio i ++ List.replicate (st.sr / 4) 0) st.sr with
        h | h | h | h <;>
      · right
        simp [processPara, hc, h, tempEvs_append, tempEvs_resetEvs,
          tempEvs_cons_msg, tempEvs_cons_create, tempEvs_cons_remove,
          tempEvs_cons_afplayCall, tempEvs_cons_afplayDone, tempEvs_nil]
  | modelObj =>
    cases hs2 : (subLoop env i 0
        { sr := st.sr, arrList := [], received := false }
        (env.gen i).subs).2 with
    | halt r =>
      left
      simp [processPara, hs2, tempEvs_append, tempEvs_resetEvs,
        tempEvs_cons_msg, tempEvs_subLoop, tempEvs_nil]
    | ok sst =>
      cases hraise : (env.gen i).raises
      · cases hrecv : sst.received
        · left
          simp [processPara, hs2, hraise, hrecv, tempEvs_append,
            tempEvs_resetEvs, tempEvs_cons_msg, tempEvs_subLoop, tempEvs_nil]
        · cases harr : (if env.pygameOk then st.arr
              else some sst.arrList.flatten) with
          | none =>
            left
            simp [processPara, hs2, hraise, hrecv, harr, tempEvs_append,
              tempEvs_resetEvs, tempEvs_cons_msg, tempEvs_subLoop,
              tempEvs_nil]
          | some a =>
            rcases playFile_cases env i
                (a ++ List.replicate (sst.sr / 4) 0) sst.sr with
              h | h | h | h <;>
            · right
              simp [processPara, hs2, hraise, hrecv, harr, h, tempEvs_append,
                tempEvs_resetEvs, tempEvs_cons_msg, tempEvs_subLoop,
                tempEvs_cons_create, tempEvs_cons_remove,
                tempEvs_cons_afplayCall, tempEvs_cons_afplayDone, tempEvs_nil]
      · left
        simp [processPara, hs2, hraise, tempEvs_append, tempEvs_resetEvs,
          tempEvs_cons_msg, tempEvs_subLoop, tempEvs_nil]

theorem tempBal_pair (i : Nat) (l : List (Bool × Nat))
    (h : tempBal l = true) :
    tempBal ((true, i) :: (false, i) :: l) = true := by
  simp [tempBal, h]

theorem streamLoop_temps (env : Env) (mode : Mode) (n : Nat) :
    ∀ (ps : List (List Char)) (i : Nat) (st : LoopSt),
      tempBal (tempEvs (streamLoop env mode n i st ps).2) = true := by
  intro ps
  induction ps with
  | nil => intro i st; simp [streamLoop, tempEvs_nil, tempBal]
  | cons p rest ih =>
    intro i st
    cases h2 : (processPara env mode n i st).2 with
    | halt r =>
      have he : (streamLoop env mode n i st (p :: rest)).2 =
          (processPara env mode n i st).1 := by
        simp only [streamLoop]
        rw [h2]
      rw [he]
      rcases processPara_temps env mode n i st with hp | hp <;> rw [hp]
      · rfl
      · exact tempBal_pair i [] rfl
    | next st' =>
      have he : (streamLoop env mode n i st (p :: rest)).2 =
          (processPara env mode n i st).1 ++
            (streamLoop env mode n (i + 1) st' rest).2 := by
        simp only [streamLoop]
        rw [h2]
      rw [he, tempEvs_append]
      rcases processPara_temps env mode n i st with hp | hp <;> rw [hp]
      · simpa using ih (i + 1) st'
      · simpa using tempBal_pair i _ (ih (i + 1) st')

/-- Claim C6: in every run, the temp-file events of the trace are balanced —
each paragraph's temp WAV creation is immediately followed, among temp-file
events, by the removal of the same file, on every exit path of the play step
(success, missing player, failing player, and a failing write whose exception
escapes), so no temporary file outlives its chunk. -/
theorem c6_tempfile_scoped (env : Env) (text : List Char) :
    tempBal (tempEvs (inprocess_stream env text).2) = true := by
  cases hs : env.sfNumpyOk
  · simp [inprocess_stream, hs, tempEvs_cons_msg, tempEvs_nil, tempBal]
  · cases htc : env.hasTTSClass
    · cases hld : env.hasLoader
      · simp [inprocess_stream, hs, htc, hld, tempEvs_cons_msg, tempEvs_nil,
          tempBal]
      · cases hlo : env.loadOk
        · simp [inprocess_stream, hs, htc, hld, hlo, tempEvs_cons_msg,
            tempEvs_cons_load, tempEvs_nil, tempBal]
        · cases hpe : (paraSplit text).isEmpty
          · have he : (inprocess_stream env text).2 =
                Ev.loadAttempt ::
                  (streamLoop env Mode.modelObj (paraSplit text).length 1
                    ⟨22050, none⟩ (paraSplit text)).2 := by
              simp [inprocess_stream, hs, htc, hld, hlo, hpe]
            rw [he, tempEvs_cons_load]
            exact streamLoop_temps env Mode.modelObj (paraSplit text).length
              (paraSplit text) 1 ⟨22050, none⟩
          · simp [inprocess_stream, hs, htc, hld, hlo, hpe,
              tempEvs_cons_load, tempEvs_nil, tempBal]
    · cases hlo : env.loadOk
      · simp [inprocess_stream, hs, htc, hlo, tempEvs_cons_msg,
          tempEvs_cons_load, tempEvs_nil, tempBal]
      · cases hpe : (paraSplit text).isEmpty
        · have he : (inprocess_stream env text).2 =
              Ev.loadAttempt ::
                (streamLoop env Mode.ttsClass (paraSplit text).length 1
                  ⟨if env.ttsHasRate then env.ttsRate else 22050, none⟩
                  (paraSplit text)).2 := by
            simp [inprocess_stream, hs, htc, hlo, hpe]
          rw [he, tempEvs_cons_load]
          exact streamLoop_temps env Mode.ttsClass (paraSplit text).length
            (paraSplit text) 1
            ⟨if env.ttsHasRate then env.ttsRate else 22050, none⟩
        · simp [inprocess_stream, hs, htc, hlo, hpe, tempEvs_cons_load,
            tempEvs_nil, tempBal]

theorem padShape_of_ne {ev : Ev}
    (h : ∀ i buf sr, ev = Ev.afplayCall i buf sr → False) : padShape ev :=
  fun i buf sr heq => (h i buf sr heq).elim

theorem padShape_afplayCall_pad (i : Nat) (a : List Int) (sr : Nat) :
    padShape (Ev.afplayCall i (a ++ List.replicate (sr / 4) 0) sr) := by
  intro i' buf' sr' heq
  cases heq
  exact ⟨a, rfl⟩

theorem padShape_resetEvs (env : Env) (mode : Mode) (i : Nat) :
    ∀ ev ∈ resetEvs env mode i, padShape ev := by
  intro ev hev
  rw [resetEvs] at hev
  split at hev
  · simp at hev
    subst hev
    exact padShape_of_ne (fun _ _ _ heq => Ev.noConfusion heq)
  · simp at hev

theorem padShape_playFile (env : Env) (i : Nat) (a : List Int) (sr : Nat) :
    ∀ ev ∈ (playFile env i (a ++ List.replicate (sr / 4) 0) sr).1,
      padShape ev := by
  intro ev hev
  rcases playFile_cases env i (a ++ List.replicate (sr / 4) 0) sr with
    h | h | h | h <;> rw [h] at hev <;> simp at hev
  · rcases hev with rfl | rfl <;>
      exact padShape_of_ne (fun _ _ _ heq => Ev.noConfusion heq)
  · rcases hev with rfl | rfl | rfl <;>
      exact padShape_of_ne (fun _ _ _ heq => Ev.noConfusion heq)
  · rcases hev with rfl | rfl | rfl | rfl
    · exact padShape_of_ne (fun _ _ _ heq => Ev.noConfusion heq)
    · exact padShape_afplayCall_pad i a sr
    · exact padShape_of_ne (fun _ _ _ heq => Ev.noConfusion heq)
    · exact padShape_of_ne (fun _ _ _ heq => Ev.noConfusion heq)
  · rcases hev with rfl | rfl | rfl | rfl
    · exact padShape_of_ne (fun _ _ _ heq => Ev.noConfusion heq)
    · exact padShape_afplayCall_pad i a sr
    · exact padShape_of_ne (fun _ _ _ heq => Ev.noConfusion heq)
    · exact padShape_of_ne (fun _ _ _ heq => Ev.noConfusion heq)

theorem padShape_subLoop (env : Env) (i : Nat) :
    ∀ (subs : List SubRes) (j : Nat) (st : SubSt),
      ∀ ev ∈ (subLoop env i j st subs).1, padShape ev := by
  intro subs
  induction subs with
  | nil => intro j st ev hev; simp [subLoop] at hev
  | cons sub rest ih =>
    intro j st ev hev
    cases hpg : env.pygameOk
    · have he : subLoop env i j st (sub :: rest) =
          subLoop env i (j + 1)
            { sr := if sub.hasRate then sub.rate else st.sr,
              arrList := st.arrList ++ [sub.audio], received := true } rest := by
        simp [subLoop, hpg]
      rw [he] at hev
      exact ih (j + 1) _ ev hev
    · cases henc : env.encodeFail i j
      · cases hpf : env.playFail i j
        · have he : (subLoop env i j st (sub :: rest)).1 =
              Ev.pygamePlayStart i j sub.audio
                  (if sub.hasRate then sub.rate else st.sr) ::
                Ev.pygamePlayEnd i j ::
                (subLoop env i (j + 1)
                  { sr := if sub.hasRate then sub.rate else st.sr,
                    arrList := st.arrList, received := true } rest).1 := by
            simp [subLoop, hpg, henc, hpf]
          rw [he] at hev
          simp at hev
          rcases hev with rfl | rfl | hev
          · exact padShape_of_ne (fun _ _ _ heq => Ev.noConfusion heq)
          · exact padShape_of_ne (fun _ _ _ heq => Ev.noConfusion heq)
          · exact ih (j + 1) _ ev hev
        · have he : (subLoop env i j st (sub :: rest)).1 =
              Ev.bufferFallback i j sub.audio ::
                (subLoop env i (j + 1)
                  { sr := if sub.hasRate then sub.rate else st.sr,
                    arrList := st.arrList ++ [sub.audio],
                    received := true } rest).1 := by
            simp [subLoop, hpg, henc, hpf]
          rw [he] at hev
          simp at hev
          rcases hev with rfl | hev
          · exact padShape_of_ne (fun _ _ _ heq => Ev.noConfusion heq)
          · exact ih (j + 1) _ ev hev
      · have he : (subLoop env i j st (sub :: rest)).1 =
            [Ev.msg Msg.errGenFailed] := by
          simp [subLoop, hpg, henc]
        rw [he] at hev
        simp at hev
        subst hev
        exact padShape_of_ne (fun _ _ _ heq => Ev.noConfusion heq)

theorem padShape_processPara (env : Env) (mode : Mode) (n i : Nat)
    (st : LoopSt) :
    ∀ ev ∈ (processPara env mode n i st).1, padShape ev := by
  have hmsg : ∀ m : Msg, padShape (Ev.msg m) :=
    fun _ => padShape_of_ne (fun _ _ _ heq => Ev.noConfusion heq)
  cases mode with
  | ttsClass =>
    cases hc : env.ttsCallOk i
    · intro ev hev
      have he : (processPara env Mode.ttsClass n i st).1 =
          resetEvs env Mode.ttsClass i ++
            [Ev.msg (Msg.generating i n), Ev.msg Msg.errGenFailed] := by
        simp [processPara, hc]
      rw [he] at hev
      rcases List.mem_append.mp hev with hev | hev
      · exact padShape_resetEvs env Mode.ttsClass i ev hev
      · simp at hev
        rcases hev with rfl | rfl <;> exact hmsg _
    · intro ev hev
      have he : (processPara env Mode.ttsClass n i st).1 =
          resetEvs env Mode.ttsClass i ++ Ev.msg (Msg.generating i n) ::
            (playFile env i
              (env.ttsAudio i ++ List.replicate (st.sr / 4) 0) st.sr).1 := by
        rcases playFile_cases env i
            (env.ttsAudio i ++ List.replicate (st.sr / 4) 0) st.sr with
          h | h | h | h <;> simp [processPara, hc, h]
      rw [he] at hev
      rcases List.mem_append.mp hev with hev | hev
      · exact padShape_resetEvs env Mode.ttsClass i ev hev
      · rcases List.mem_cons.mp hev with rfl | hev
        · exact hmsg _
        · exact padShape_playFile env i (env.ttsAudio i) st.sr ev hev
  | modelObj =>
    cases hs2 : (subLoop env i 0
        { sr := st.sr, arrList := [], received := false }
        (env.gen i).subs).2 with
    | halt r =>
      intro ev hev
      have he : (processPara env Mode.modelObj n i st).1 =
          resetEvs env Mode.modelObj i ++ Ev.msg (Msg.generating i n) ::
            (subLoop env i 0 { sr := st.sr, arrList := [], received := false }
              (env.gen i).subs).1 := by
        simp [processPara, hs2]
      rw [he] at hev
      rcases List.mem_append.mp hev with hev | hev
      · exact padShape_resetEvs env Mode.modelObj i ev hev
      · rcases List.mem_cons.mp hev with rfl | hev
        · exact hmsg _
        · exact padShape_subLoop env i (env.gen i).subs 0 _ ev hev
    | ok sst =>
      have hcommon : ∀ (tail : List Ev),
          (∀ ev ∈ tail, padShape ev) →
          ∀ ev ∈ resetEvs env Mode.modelObj i ++
            Ev.msg (Msg.generating i n) ::
              ((subLoop env i 0
                { sr := st.sr, arrList := [], received := false }
                (env.gen i).subs).1 ++ tail), padShape ev := by
        intro tail htail ev hev
        rcases List.mem_append.mp hev with hev | hev
        · exact padShape_resetEvs env Mode.modelObj i ev hev
        · rcases List.mem_cons.mp hev with rfl | hev
          · exact hmsg _
          · rcases List.mem_append.mp hev with hev | hev
            · exact padShape_subLoop env i (env.gen i).subs 0 _ ev hev
            · exact htail ev hev
      cases hraise : (env.gen i).raises
      · cases hrecv : sst.received
        · intro ev hev
          have he : (processPara env Mode.modelObj n i st).1 =
              resetEvs env Mode.modelObj i ++ Ev.msg (Msg.generating i n) ::
                ((subLoop env i 0
                  { sr := st.sr, arrList := [], received := false }
                  (env.gen i).subs).1 ++ [Ev.msg Msg.errNoAudio]) := by
            simp [processPara, hs2, hraise, hrecv]
          rw [he] at hev
          exact hcommon [Ev.msg Msg.errNoAudio]
            (by intro ev hev; simp at hev; subst hev; exact hmsg _) ev hev
        · cases harr : (if env.pygameOk then st.arr
              else some sst.arrList.flatten) with
          | none =>
            intro ev hev
            have he : (processPara env Mode.modelObj n i st).1 =
                resetEvs env Mode.modelObj i ++
                  Ev.msg (Msg.generating i n) ::
                    ((subLoop env i 0
                      { sr := st.sr, arrList := [], received := false }
                      (env.gen i).subs).1 ++ [Ev.msg Msg.errBadFormat]) := by
              simp [processPara, hs2, hraise, hrecv, harr]
            rw [he] at hev
            exact hcommon [Ev.msg Msg.errBadFormat]
              (by intro ev hev; simp at hev; subst hev; exact hmsg _) ev hev
          | some a =>
            intro ev hev
            have he : (processPara env Mode.modelObj n i st).1 =
                resetEvs env Mode.modelObj i ++
                  Ev.msg (Msg.generating i n) ::
                    ((subLoop env i 0
                      { sr := st.sr, arrList := [], received := false }
                      (env.gen i).subs).1 ++
                      (playFile env i
                        (a ++ List.replicate (sst.sr / 4) 0) sst.sr).1) := by
              rcases playFile_cases env i
                  (a ++ List.replicate (sst.sr / 4) 0) sst.sr with
                h | h | h | h <;> simp [processPara, hs2, hraise, hrecv, harr, h]
            rw [he] at hev
            exact hcommon _ (padShape_playFile env i a sst.sr) ev hev
      · intro ev hev
        have he : (processPara env Mode.modelObj n i st).1 =
            resetEvs env Mode.modelObj i ++ Ev.msg (Msg.generating i n) ::
              ((subLoop env i 0
                { sr := st.sr, arrList := [], received := false }
                (env.gen i).subs).1 ++ [Ev.msg Msg.errGenFailed]) := by
          simp [processPara, hs2, hraise]
        rw [he] at hev
        exact hcommon [Ev.msg Msg.errGenFailed]
          (by intro ev hev; simp at hev; subst hev; exact hmsg _) ev hev

theorem padShape_streamLoop (env : Env) (mode : Mode) (n : Nat) :
    ∀ (ps : List (List Char)) (i : Nat) (st : LoopSt),
      ∀ ev ∈ (streamLoop env mode n i st ps).2, padShape ev := by
  intro ps
  induction ps with
  | nil => intro i st ev hev; simp [streamLoop] at hev
  | cons p rest ih =>
    intro i st ev hev
    cases h2 : (processPara env mode n i st).2 with
    | halt r =>
      have he : (streamLoop env mode n i st (p :: rest)).2 =
          (processPara env mode n i st).1 := by
        simp only [streamLoop]
        rw [h2]
      rw [he] at hev
      exact padShape_processPara env mode n i st ev hev
    | next st' =>
      have he : (streamLoop env mode n i st (p :: rest)).2 =
          (processPara env mode n i st).1 ++
            (streamLoop env mode n (i + 1) st' rest).2 := by
        simp only [streamLoop]
        rw [h2]
      rw [he] at hev
      rcases List.mem_append.mp hev with hev | hev
      · exact padShape_processPara env mode n i st ev hev
      · exact ih (i + 1) st' ev hev

/-- Claim C5 (amended): every buffer handed to the external-player (afplay)
backend ends in the 250 ms silence padding — `sample_rate / 4` zero samples
appended before playback; this covers both synthesis paths.  Buffers played
via the in-memory pygame mixer are not padded (see the counterexample). -/
theorem c5_silence_padding_afplay (env : Env) (text : List Char) (i : Nat)
    (buf : List Int) (sr : Nat)
    (hmem : Ev.afplayCall i buf sr ∈ (inprocess_stream env text).2) :
    ∃ pre, buf = pre ++ List.replicate (sr / 4) 0 := by
  have hall : ∀ ev ∈ (inprocess_stream env text).2, padShape ev := by
    cases hs : env.sfNumpyOk
    · intro ev hev
      simp [inprocess_stream, hs] at hev
      subst hev
      exact padShape_of_ne (fun _ _ _ heq => Ev.noConfusion heq)
    · have hload : padShape Ev.loadAttempt :=
        padShape_of_ne (fun _ _ _ heq => Ev.noConfusion heq)
      have hmsg : ∀ m : Msg, padShape (Ev.msg m) :=
        fun _ => padShape_of_ne (fun _ _ _ heq => Ev.noConfusion heq)
      cases htc : env.hasTTSClass
      · cases hld : env.hasLoader
        · intro ev hev
          simp [inprocess_stream, hs, htc, hld] at hev
          subst hev
          exact hmsg _
        · cases hlo : env.loadOk
          · intro ev hev
            simp [inprocess_stream, hs, htc, hld, hlo] at hev
            rcases hev with rfl | rfl
            · exact hload
            · exact hmsg _
          · cases hpe : (paraSplit text).isEmpty
            · intro ev hev
              have he : (inprocess_stream env text).2 =
                  Ev.loadAttempt ::
                    (streamLoop env Mode.modelObj (paraSplit text).length 1
                      ⟨22050, none⟩ (paraSplit text)).2 := by
                simp [inprocess_stream, hs, htc, hld, hlo, hpe]
              rw [he] at hev
              rcases List.mem_cons.mp hev with rfl | hev
              · exact hload
              · exact padShape_streamLoop env Mode.modelObj
                  (paraSplit text).length (paraSplit text) 1 ⟨22050, none⟩
                  ev hev
            · intro ev hev
              simp [inprocess_stream, hs, htc, hld, hlo, hpe] at hev
              subst hev
              exact hload
      · cases hlo : env.loadOk
        · intro ev hev
          simp [inprocess_stream, hs, htc, hlo] at hev
          rcases hev with rfl | rfl
          · exact hload
          · exact hmsg _
        · cases hpe : (paraSplit text).isEmpty
          · intro ev hev
            have he : (inprocess_stream env text).2 =
                Ev.loadAttempt ::
                  (streamLoop env Mode.ttsClass (paraSplit text).length 1
                    ⟨if env.ttsHasRate then env.ttsRate else 22050, none⟩
                    (paraSplit text)).2 := by
              simp [inprocess_stream, hs, htc, hlo, hpe]
            rw [he] at hev
            rcases List.mem_cons.mp hev with rfl | hev
            · exact hload
            · exact padShape_streamLoop env Mode.ttsClass
                (paraSplit text).length (paraSplit text) 1
                ⟨if env.ttsHasRate then env.ttsRate else 22050, none⟩ ev hev
          · intro ev hev
            simp [inprocess_stream, hs, htc, hlo, hpe] at hev
            subst hev
            exact hload
  exact hall (Ev.afplayCall i buf sr) hmem i buf sr rfl

theorem c5_silence_padding_afplay_witness :
    ∃ pre, ([5, 6, 0, 0] : List Int) = pre ++ List.replicate (8 / 4) 0 :=
  c5_silence_padding_afplay envOkNoPg txtHi 1 [5, 6, 0, 0] 8 (by decide)

/-- Claim C5 (counterexample): on the in-memory pygame backend a generated
sub-buffer is handed to playback exactly as produced, with no 250 ms silence
appended — the played buffer `[1, 2, 3]` is shorter than the padding itself
(22050 / 4 = 5512 zero samples), so no silence was concatenated. -/
theorem c5_counterexample :
    Ev.pygamePlayStart 1 0 [1, 2, 3] 22050 ∈
      (inprocess_stream envC5 txtHi).2 ∧
    ¬∃ pre, ([1, 2, 3] : List Int) =
      pre ++ List.replicate (22050 / 4) (0 : Int) := by
  constructor
  · decide
  · rintro ⟨pre, hpre⟩
    have h1 := congrArg List.length hpre
    rw [List.length_append, List.length_replicate] at h1
    have h2 : (22050 : Nat) / 4 = 5512 := by norm_num
    rw [h2] at h1
    simp only [List.length_cons, List.length_nil] at h1
    omega

theorem processPara_good_step (env : Env) (n i : Nat) (st : LoopSt)
    (hpg : env.pygameOk = false) (hg : paraGood env i) :
    ∃ st' buf sr,
      processPara env Mode.modelObj n i st =
        ([Ev.msg (Msg.generating i n), Ev.tempCreate i,
          Ev.afplayCall i buf sr, Ev.afplayDone i, Ev.tempRemove i],
         StepOut.next st') := by
  obtain ⟨hr, hs, hw, hm, hf⟩ := hg
  obtain ⟨sst, hsub, hrec⟩ := subLoop_nopg env i hpg (env.gen i).subs 0
    { sr := st.sr, arrList := [], received := false }
  have hrecv : sst.received = true := by
    cases hsubs : (env.gen i).subs with
    | nil => exact absurd hsubs hs
    | cons a b => rw [hsubs] at hrec; simpa using hrec
  have hpf : playFile env i
      (sst.arrList.flatten ++ List.replicate (sst.sr / 4) 0) sst.sr =
      ([Ev.tempCreate i,
        Ev.afplayCall i
          (sst.arrList.flatten ++ List.replicate (sst.sr / 4) 0) sst.sr,
        Ev.afplayDone i, Ev.tempRemove i], none) := by
    simp [playFile, hw, hm, hf]
  refine ⟨⟨sst.sr,
    some (sst.arrList.flatten ++ List.replicate (sst.sr / 4) 0)⟩,
    sst.arrList.flatten ++ List.replicate (sst.sr / 4) 0, sst.sr, ?_⟩
  simp [processPara, hsub, hr, hrecv, hpg, hpf, resetEvs]

theorem processPara_fail_step (env : Env) (n i : Nat) (st : LoopSt)
    (hpg : env.pygameOk = false)
    (hf : (env.gen i).raises = true ∨ (env.gen i).subs = []) :
    processPara env Mode.modelObj n i st =
      ([Ev.msg (Msg.generating i n),
        Ev.msg (if (env.gen i).raises then Msg.errGenFailed
          else Msg.errNoAudio)],
       StepOut.halt (Res.ret 5)) := by
  obtain ⟨sst, hsub, hrec⟩ := subLoop_nopg env i hpg (env.gen i).subs 0
    { sr := st.sr, arrList := [], received := false }
  cases hr : (env.gen i).raises
  · have hsubs : (env.gen i).subs = [] := by
      rcases hf with h | h
      · rw [hr] at h; cases h
      · exact h
    have hrecv : sst.received = false := by
      rw [hsubs] at hrec; simpa using hrec
    simp [processPara, hsub, hr, hrecv, resetEvs]
  · simp [processPara, hsub, hr, resetEvs]

theorem streamLoop_fail (env : Env) (n : Nat) (hpg : env.pygameOk = false) :
    ∀ (ps1 : List (List Char)) (p : List Char) (ps2 : List (List Char))
      (k : Nat) (st : LoopSt),
      (∀ m, m < ps1.length → paraGood env (k + m)) →
      ((env.gen (k + ps1.length)).raises = true ∨
        (env.gen (k + ps1.length)).subs = []) →
      ∃ pre,
        (streamLoop env Mode.modelObj n k st (ps1 ++ p :: ps2) =
          (Res.ret 5,
           pre ++ [Ev.msg (Msg.generating (k + ps1.length) n),
             Ev.msg (if (env.gen (k + ps1.length)).raises then
               Msg.errGenFailed else Msg.errNoAudio)])) ∧
        ∀ q nn, Ev.msg (Msg.generating q nn) ∈ pre →
          q < k + ps1.length ∧ nn = n := by
  intro ps1
  induction ps1 with
  | nil =>
    intro p ps2 k st hgood hfail
    refine ⟨[], ?_, by simp⟩
    have hstep := processPara_fail_step env n k st hpg (by simpa using hfail)
    rw [List.nil_append]
    have he2 : streamLoop env Mode.modelObj n k st (p :: ps2) =
        (Res.ret 5, (processPara env Mode.modelObj n k st).1) := by
      simp only [streamLoop]
      rw [hstep]
    rw [he2, hstep]
    simp
  | cons q qs ih =>
    intro p ps2 k st hgood hfail
    have hg0 : paraGood env k := by
      have := hgood 0 (by simp)
      simpa using this
    obtain ⟨st', buf, sr, hstep⟩ := processPara_good_step env n k st hpg hg0
    have hlen : k + (q :: qs).length = k + 1 + qs.length := by
      simp [List.length_cons]
      omega
    obtain ⟨pre, hloop, hmem⟩ := ih p ps2 (k + 1) st'
      (fun m hm => by
        have h5 := hgood (m + 1) (by simpa using Nat.succ_lt_succ hm)
        have heq : k + (m + 1) = k + 1 + m := by omega
        rwa [heq] at h5)
      (by rwa [hlen] at hfail)
    refine ⟨[Ev.msg (Msg.generating k n), Ev.tempCreate k,
      Ev.afplayCall k buf sr, Ev.afplayDone k, Ev.tempRemove k] ++ pre,
      ?_, ?_⟩
    · have he2 : streamLoop env Mode.modelObj n k st
          ((q :: qs) ++ p :: ps2) =
          ((streamLoop env Mode.modelObj n (k + 1) st'
            (qs ++ p :: ps2)).1,
           (processPara env Mode.modelObj n k st).1 ++
             (streamLoop env Mode.modelObj n (k + 1) st'
               (qs ++ p :: ps2)).2) := by
        rw [List.cons_append]
        simp only [streamLoop]
        rw [hstep]
      rw [he2, hloop, hstep, hlen]
      simp [List.append_assoc]
    · intro q' nn hq
      rcases List.mem_append.mp hq with hq | hq
      · simp at hq
        obtain ⟨rfl, rfl⟩ := hq
        refine ⟨?_, rfl⟩
        simp
      · have h6 := hmem q' nn hq
        refine ⟨?_, h6.2⟩
        rw [hlen]
        exact Nat.lt_of_lt_of_le h6.1 (by omega)

/-- Loader-path lemma (no pygame): if every chunk before chunk i succeeds
and chunk i's synthesis raises or yields zero audio, the run returns exit
code 5; the trace ends with the `Generating i/n` progress line followed
directly by the error line, and the side channel names no chunk index beyond
i — no subsequent chunk is attempted and the failing 1-based index is the
last one reported. -/
theorem c2_generation_failure_halts (env : Env) (text : List Char) (i : Nat)
    (hdeps : env.sfNumpyOk = true) (htc : env.hasTTSClass = false)
    (hld : env.hasLoader = true) (hlo : env.loadOk = true)
    (hpg : env.pygameOk = false)
    (hgood : ∀ j, 1 ≤ j → j < i → paraGood env j)
    (hfail : (env.gen i).raises = true ∨ (env.gen i).subs = [])
    (hi1 : 1 ≤ i) (hin : i ≤ (paraSplit text).length) :
    (inprocess_stream env text).1 = Res.ret 5 ∧
    ∃ pre,
      ((inprocess_stream env text).2 =
        pre ++ [Ev.msg (Msg.generating i (paraSplit text).length),
          Ev.msg (if (env.gen i).raises then Msg.errGenFailed
            else Msg.errNoAudio)]) ∧
      ∀ q nn, Ev.msg (Msg.generating q nn) ∈ (inprocess_stream env text).2 →
        q ≤ i ∧ nn = (paraSplit text).length := by
  have hlen0 : 0 < (paraSplit text).length := lt_of_lt_of_le hi1 hin
  have hpe : (paraSplit text).isEmpty = false := by
    cases hq : paraSplit text
    · rw [hq] at hlen0; simp at hlen0
    · rfl
  have hi1' : i - 1 < (paraSplit text).length := by omega
  have hdecomp : paraSplit text =
      (paraSplit text).take (i - 1) ++
        (paraSplit text).get ⟨i - 1, hi1'⟩ :: (paraSplit text).drop i := by
    have h1 := List.take_append_drop (i - 1) (paraSplit text)
    have h2 := List.drop_eq_getElem_cons hi1'
    have h3 : i - 1 + 1 = i := by omega
    rw [h3] at h2
    rw [h2] at h1
    exact h1.symm
  have htk : ((paraSplit text).take (i - 1)).length = i - 1 := by
    simp [List.length_take]
    omega
  have hkl : 1 + ((paraSplit text).take (i - 1)).length = i := by
    rw [htk]
    omega
  obtain ⟨pre, hloop, hmem⟩ := streamLoop_fail env (paraSplit text).length
    hpg ((paraSplit text).take (i - 1))
    ((paraSplit text).get ⟨i - 1, hi1'⟩) ((paraSplit text).drop i) 1
    ⟨22050, none⟩
    (fun m hm => hgood (1 + m) (by omega) (by rw [htk] at hm; omega))
    (by rw [hkl]; exact hfail)
  rw [hkl] at hloop hmem
  rw [← hdecomp] at hloop
  have hmain1 : (inprocess_stream env text).1 =
      (streamLoop env Mode.modelObj (paraSplit text).length 1 ⟨22050, none⟩
        (paraSplit text)).1 := by
    simp [inprocess_stream, hdeps, htc, hld, hlo, hpe]
  have hmain2 : (inprocess_stream env text).2 =
      Ev.loadAttempt ::
        (streamLoop env Mode.modelObj (paraSplit text).length 1
          ⟨22050, none⟩ (paraSplit text)).2 := by
    simp [inprocess_stream, hdeps, htc, hld, hlo, hpe]
  constructor
  · rw [hmain1, hloop]
  · refine ⟨Ev.loadAttempt :: pre, ?_, ?_⟩
    · rw [hmain2, hloop]
      rfl
    · intro q nn hq
      rw [hmain2, hloop] at hq
      rcases List.mem_cons.mp hq with heq | hq
      · exact absurd heq (by simp)
      · rcases List.mem_append.mp hq with hq | hq
        · have h7 := hmem q nn hq
          exact ⟨le_of_lt h7.1, h7.2⟩
        · simp at hq
          rcases hq with ⟨rfl, rfl⟩ | hq
          · exact ⟨le_refl _, rfl⟩
          · cases hcr : (env.gen i).raises <;> rw [hcr] at hq <;> simp at hq

theorem c2_generation_failure_halts_witness :
    (inprocess_stream envGenRaises txtHi).1 = Res.ret 5 ∧
    ∃ pre,
      ((inprocess_stream envGenRaises txtHi).2 =
        pre ++ [Ev.msg (Msg.generating 1 (paraSplit txtHi).length),
          Ev.msg (if (envGenRaises.gen 1).raises then Msg.errGenFailed
            else Msg.errNoAudio)]) ∧
      ∀ q nn,
        Ev.msg (Msg.generating q nn) ∈
          (inprocess_stream envGenRaises txtHi).2 →
        q ≤ 1 ∧ nn = (paraSplit txtHi).length :=
  c2_generation_failure_halts envGenRaises txtHi 1 (by decide) (by decide)
    (by decide) (by decide) (by decide)
    (fun _ h1 h2 => absurd (lt_of_le_of_lt h1 h2) (lt_irrefl 1))
    (Or.inl (by decide)) (by decide) (by decide)

theorem resetEvs_no_generating (env : Env) (mode : Mode) (i q nn : Nat) :
    Ev.msg (Msg.generating q nn) ∉ resetEvs env mode i := by
  rw [resetEvs]
  split <;> simp

theorem playFile_no_generating (env : Env) (i : Nat) (buf : List Int)
    (sr q nn : Nat) :
    Ev.msg (Msg.generating q nn) ∉ (playFile env i buf sr).1 := by
  rcases playFile_cases env i buf sr with h | h | h | h <;> rw [h] <;> simp

theorem subLoop_no_generating (env : Env) (i : Nat) :
    ∀ (subs : List SubRes) (j : Nat) (st : SubSt) (q nn : Nat),
      Ev.msg (Msg.generating q nn) ∉ (subLoop env i j st subs).1 := by
  intro subs
  induction subs with
  | nil => intro j st q nn; simp [subLoop]
  | cons sub rest ih =>
    intro j st q nn
    cases hpg : env.pygameOk
    · have he : subLoop env i j st (sub :: rest) =
          subLoop env i (j + 1)
            { sr := if sub.hasRate then sub.rate else st.sr,
              arrList := st.arrList ++ [sub.audio], received := true } rest := by
        simp [subLoop, hpg]
      rw [he]
      exact ih (j + 1) _ q nn
    · cases henc : env.encodeFail i j
      · cases hpf : env.playFail i j
        · have he : (subLoop env i j st (sub :: rest)).1 =
              Ev.pygamePlayStart i j sub.audio
                  (if sub.hasRate then sub.rate else st.sr) ::
                Ev.pygamePlayEnd i j ::
                (subLoop env i (j + 1)
                  { sr := if sub.hasRate then sub.rate else st.sr,
                    arrList := st.arrList, received := true } rest).1 := by
            simp [subLoop, hpg, henc, hpf]
          rw [he]
          intro hq
          rcases List.mem_cons.mp hq with heq | hq
          · exact Ev.noConfusion heq
          · rcases List.mem_cons.mp hq with heq | hq
            · exact Ev.noConfusion heq
            · exact ih (j + 1) _ q nn hq
        · have he : (subLoop env i j st (sub :: rest)).1 =
              Ev.bufferFallback i j sub.audio ::
                (subLoop env i (j + 1)
                  { sr := if sub.hasRate then sub.rate else st.sr,
                    arrList := st.arrList ++ [sub.audio],
                    received := true } rest).1 := by
            simp [subLoop, hpg, henc, hpf]
          rw [he]
          intro hq
          rcases List.mem_cons.mp hq with heq | hq
          · exact Ev.noConfusion heq
          · exact ih (j + 1) _ q nn hq
      · have he : (subLoop env i j st (sub :: rest)).1 =
            [Ev.msg Msg.errGenFailed] := by
          simp [subLoop, hpg, henc]
        rw [he]
        simp

theorem subLoop_halt_code (env : Env) (i : Nat) :
    ∀ (subs : List SubRes) (j : Nat) (st : SubSt) (r : Res),
      (subLoop env i j st subs).2 = SubOut.halt r → r = Res.ret 5 := by
  intro subs
  induction subs with
  | nil => intro j st r h; simp [subLoop] at h
  | cons sub rest ih =>
    intro j st r h
    cases hpg : env.pygameOk
    · have he : subLoop env i j st (sub :: rest) =
          subLoop env i (j + 1)
            { sr := if sub.hasRate then sub.rate else st.sr,
              arrList := st.arrList ++ [sub.audio], received := true } rest := by
        simp [subLoop, hpg]
      rw [he] at h
      exact ih (j + 1) _ r h
    · cases henc : env.encodeFail i j
      · cases hpf : env.playFail i j
        · have he : (subLoop env i j st (sub :: rest)).2 =
              (subLoop env i (j + 1)
                { sr := if sub.hasRate then sub.rate else st.sr,
                  arrList := st.arrList, received := true } rest).2 := by
            simp [subLoop, hpg, henc, hpf]
          rw [he] at h
          exact ih (j + 1) _ r h
        · have he : (subLoop env i j st (sub :: rest)).2 =
              (subLoop env i (j + 1)
                { sr := if sub.hasRate then sub.rate else st.sr,
                  arrList := st.arrList ++ [sub.audio],
                  received := true } rest).2 := by
            simp [subLoop, hpg, henc, hpf]
          rw [he] at h
          exact ih (j + 1) _ r h
      · have he : (subLoop env i j st (sub :: rest)).2 =
            SubOut.halt (Res.ret 5) := by
          simp [subLoop, hpg, henc]
        rw [he] at h
        exact (SubOut.halt.inj h).symm

theorem subLoop_ok_received (env : Env) (i : Nat) :
    ∀ (subs : List SubRes) (j : Nat) (st : SubSt) (sst : SubSt),
      (subLoop env i j st subs).2 = SubOut.ok sst →
      sst.received = (st.received || !subs.isEmpty) := by
  intro subs
  induction subs with
  | nil =>
    intro j st sst h
    simp [subLoop] at h
    subst h
    simp
  | cons sub rest ih =>
    intro j st sst h
    cases hpg : env.pygameOk
    · have he : subLoop env i j st (sub :: rest) =
          subLoop env i (j + 1)
            { sr := if sub.hasRate then sub.rate else st.sr,
              arrList := st.arrList ++ [sub.audio], received := true } rest := by
        simp [subLoop, hpg]
      rw [he] at h
      have h9 := ih (j + 1) _ sst h
      simp at h9
      simp [h9]
    · cases henc : env.encodeFail i j
      · cases hpf : env.playFail i j
        · have he : (subLoop env i j st (sub :: rest)).2 =
              (subLoop env i (j + 1)
                { sr := if sub.hasRate then sub.rate else st.sr,
                  arrList := st.arrList, received := true } rest).2 := by
            simp [subLoop, hpg, henc, hpf]
          rw [he] at h
          have h9 := ih (j + 1) _ sst h
          simp at h9
          simp [h9]
        · have he : (subLoop env i j st (sub :: rest)).2 =
              (subLoop env i (j + 1)
                { sr := if sub.hasRate then sub.rate else st.sr,
                  arrList := st.arrList ++ [sub.audio],
                  received := true } rest).2 := by
            simp [subLoop, hpg, henc, hpf]
          rw [he] at h
          have h9 := ih (j + 1) _ sst h
          simp at h9
          simp [h9]
      · have he : (subLoop env i j st (sub :: rest)).2 =
            SubOut.halt (Res.ret 5) := by
          simp [subLoop, hpg, henc]
        rw [he] at h
        exact SubOut.noConfusion h

theorem processPara_shape (env : Env) (mode : Mode) (n i : Nat)
    (st : LoopSt) :
    ∃ mid, (processPara env mode n i st).1 =
      resetEvs env mode i ++ Ev.msg (Msg.generating i n) :: mid ∧
      ∀ q nn, Ev.msg (Msg.generating q nn) ∉ mid := by
  cases mode with
  | ttsClass =>
    cases hc : env.ttsCallOk i
    · refine ⟨[Ev.msg Msg.errGenFailed], ?_, by simp⟩
      simp [processPara, hc]
    · rcases playFile_cases env i
          (env.ttsAudio i ++ List.replicate (st.sr / 4) 0) st.sr with
        h | h | h | h <;>
      · refine ⟨(playFile env i
          (env.ttsAudio i ++ List.replicate (st.sr / 4) 0) st.sr).1, ?_,
          fun q nn => playFile_no_generating env i _ st.sr q nn⟩
        simp [processPara, hc, h]
  | modelObj =>
    cases hs2 : (subLoop env i 0
        { sr := st.sr, arrList := [], received := false }
        (env.gen i).subs).2 with
    | halt r =>
      refine ⟨(subLoop env i 0
        { sr := st.sr, arrList := [], received := false }
        (env.gen i).subs).1, ?_,
        fun q nn => subLoop_no_generating env i (env.gen i).subs 0 _ q nn⟩
      simp [processPara, hs2]
    | ok sst =>
      have hsub_no := subLoop_no_generating env i (env.gen i).subs 0
        (⟨st.sr, [], false⟩ : SubSt)
      cases hraise : (env.gen i).raises
      · cases hrecv : sst.received
        · refine ⟨(subLoop env i 0
            { sr := st.sr, arrList := [], received := false }
            (env.gen i).subs).1 ++ [Ev.msg Msg.errNoAudio], ?_, ?_⟩
          · simp [processPara, hs2, hraise, hrecv]
          · intro q nn hq
            rcases List.mem_append.mp hq with hq | hq
            · exact hsub_no q nn hq
            · simp at hq
        · cases harr : (if env.pygameOk then st.arr
              else some sst.arrList.flatten) with
          | none =>
            refine ⟨(subLoop env i 0
              { sr := st.sr, arrList := [], received := false }
              (env.gen i).subs).1 ++ [Ev.msg Msg.errBadFormat], ?_, ?_⟩
            · simp [processPara, hs2, hraise, hrecv, harr]
            · intro q nn hq
              rcases List.mem_append.mp hq with hq | hq
              · exact hsub_no q nn hq
              · simp at hq
          | some a =>
            rcases playFile_cases env i
                (a ++ List.replicate (sst.sr / 4) 0) sst.sr with
              h | h | h | h <;>
            · refine ⟨(subLoop env i 0
                { sr := st.sr, arrList := [], received := false }
                (env.gen i).subs).1 ++
                (playFile env i
                  (a ++ List.replicate (sst.sr / 4) 0) sst.sr).1, ?_, ?_⟩
              · simp [processPara, hs2, hraise, hrecv, harr, h]
              · intro q nn hq
                rcases List.mem_append.mp hq with hq | hq
                · exact hsub_no q nn hq
                · exact playFile_no_generating env i _ sst.sr q nn hq
      · refine ⟨(subLoop env i 0
          { sr := st.sr, arrList := [], received := false }
          (env.gen i).subs).1 ++ [Ev.msg Msg.errGenFailed], ?_, ?_⟩
        · simp [processPara, hs2, hraise]
        · intro q nn hq
          rcases List.mem_append.mp hq with hq | hq
          · exact hsub_no q nn hq
          · simp at hq

theorem processPara_gen_msgs (env : Env) (mode : Mode) (n i : Nat)
    (st : LoopSt) (q nn : Nat)
    (hq : Ev.msg (Msg.generating q nn) ∈ (processPara env mode n i st).1) :
    q = i ∧ nn = n := by
  obtain ⟨mid, he, hmid⟩ := processPara_shape env mode n i st
  rw [he] at hq
  rcases List.mem_append.mp hq with hq | hq
  · exact absurd hq (resetEvs_no_generating env mode i q nn)
  · rcases List.mem_cons.mp hq with heq | hq
    · simp at heq
      exact heq
    · exact absurd hq (hmid q nn)

theorem processPara_has_gen (env : Env) (mode : Mode) (n i : Nat)
    (st : LoopSt) :
    Ev.msg (Msg.generating i n) ∈ (processPara env mode n i st).1 := by
  obtain ⟨mid, he, _⟩ := processPara_shape env mode n i st
  rw [he]
  exact List.mem_append.mpr (Or.inr (List.mem_cons_self _ _))

theorem processPara_pg_fail_code (env : Env) (n i : Nat) (st : LoopSt)
    (hpg : env.pygameOk = true) (harr : st.arr = none)
    (hfail : (env.gen i).raises = true ∨ (env.gen i).subs = []) :
    (processPara env Mode.modelObj n i st).2 = StepOut.halt (Res.ret 5) := by
  cases hs2 : (subLoop env i 0
      { sr := st.sr, arrList := [], received := false }
      (env.gen i).subs).2 with
  | halt r =>
    have hr := subLoop_halt_code env i (env.gen i).subs 0
      ⟨st.sr, [], false⟩ r hs2
    subst hr
    simp [processPara, hs2]
  | ok sst =>
    cases hraise : (env.gen i).raises
    · have hsubs : (env.gen i).subs = [] := by
        rcases hfail with h | h
        · rw [hraise] at h; cases h
        · exact h
      have hrecv : sst.received = false := by
        have h9 := subLoop_ok_received env i (env.gen i).subs 0
          ⟨st.sr, [], false⟩ sst hs2
        rw [hsubs] at h9
        simpa using h9
      simp [processPara, hs2, hraise, hrecv]
    · simp [processPara, hs2, hraise]

theorem processPara_good_step_tts (env : Env) (n i : Nat) (st : LoopSt)
    (hg : paraGoodTts env i) :
    ∃ st' buf sr,
      processPara env Mode.ttsClass n i st =
        (resetEvs env Mode.ttsClass i ++
          [Ev.msg (Msg.generating i n), Ev.tempCreate i,
           Ev.afplayCall i buf sr, Ev.afplayDone i, Ev.tempRemove i],
         StepOut.next st') := by
  obtain ⟨hc, hw, hm, hf⟩ := hg
  have hpf : playFile env i
      (env.ttsAudio i ++ List.replicate (st.sr / 4) 0) st.sr =
      ([Ev.tempCreate i,
        Ev.afplayCall i (env.ttsAudio i ++ List.replicate (st.sr / 4) 0)
          st.sr, Ev.afplayDone i, Ev.tempRemove i], none) := by
    simp [playFile, hw, hm, hf]
  refine ⟨⟨st.sr, some (env.ttsAudio i ++ List.replicate (st.sr / 4) 0)⟩,
    env.ttsAudio i ++ List.replicate (st.sr / 4) 0, st.sr, ?_⟩
  simp [processPara, hc, hpf]

theorem processPara_fail_step_tts (env : Env) (n i : Nat) (st : LoopSt)
    (hc : env.ttsCallOk i = false) :
    processPara env Mode.ttsClass n i st =
      (resetEvs env Mode.ttsClass i ++
        [Ev.msg (Msg.generating i n), Ev.msg Msg.errGenFailed],
       StepOut.halt (Res.ret 5)) := by
  simp [processPara, hc]

theorem streamLoop_fail_tts (env : Env) (n : Nat) :
    ∀ (ps1 : List (List Char)) (p : List Char) (ps2 : List (List Char))
      (k : Nat) (st : LoopSt),
      (∀ m, m < ps1.length → paraGoodTts env (k + m)) →
      env.ttsCallOk (k + ps1.length) = false →
      ∃ pre,
        (streamLoop env Mode.ttsClass n k st (ps1 ++ p :: ps2) =
          (Res.ret 5,
           pre ++ [Ev.msg (Msg.generating (k + ps1.length) n),
             Ev.msg Msg.errGenFailed])) ∧
        ∀ q nn, Ev.msg (Msg.generating q nn) ∈ pre →
          q < k + ps1.length ∧ nn = n := by
  intro ps1
  induction ps1 with
  | nil =>
    intro p ps2 k st hgood hfail
    refine ⟨resetEvs env Mode.ttsClass k, ?_, ?_⟩
    · have hstep := processPara_fail_step_tts env n k st (by simpa using hfail)
      rw [List.nil_append]
      have he2 : streamLoop env Mode.ttsClass n k st (p :: ps2) =
          (Res.ret 5, (processPara env Mode.ttsClass n k st).1) := by
        simp only [streamLoop]
        rw [hstep]
      rw [he2, hstep]
      simp
    · intro q nn hq
      exact absurd hq (resetEvs_no_generating env Mode.ttsClass k q nn)
  | cons qq qs ih =>
    intro p ps2 k st hgood hfail
    have hg0 : paraGoodTts env k := by
      have := hgood 0 (by simp)
      simpa using this
    obtain ⟨st', buf, sr, hstep⟩ := processPara_good_step_tts env n k st hg0
    have hlen : k + (qq :: qs).length = k + 1 + qs.length := by
      simp [List.length_cons]
      omega
    obtain ⟨pre, hloop, hmem⟩ := ih p ps2 (k + 1) st'
      (fun m hm => by
        have h5 := hgood (m + 1) (by simpa using Nat.succ_lt_succ hm)
        have heq : k + (m + 1) = k + 1 + m := by omega
        rwa [heq] at h5)
      (by rwa [hlen] at hfail)
    refine ⟨(resetEvs env Mode.ttsClass k ++
      [Ev.msg (Msg.generating k n), Ev.tempCreate k,
       Ev.afplayCall k buf sr, Ev.afplayDone k, Ev.tempRemove k]) ++ pre,
      ?_, ?_⟩
    · have he2 : streamLoop env Mode.ttsClass n k st
          ((qq :: qs) ++ p :: ps2) =
          ((streamLoop env Mode.ttsClass n (k + 1) st'
            (qs ++ p :: ps2)).1,
           (processPara env Mode.ttsClass n k st).1 ++
             (streamLoop env Mode.ttsClass n (k + 1) st'
               (qs ++ p :: ps2)).2) := by
        rw [List.cons_append]
        simp only [streamLoop]
        rw [hstep]
      rw [he2, hloop, hstep, hlen]
      simp [List.append_assoc]
    · intro q' nn hq
      rcases List.mem_append.mp hq with hq | hq
      · rcases List.mem_append.mp hq with hq | hq
        · exact absurd hq (resetEvs_no_generating env Mode.ttsClass k q' nn)
        · simp at hq
          obtain ⟨rfl, rfl⟩ := hq
          exact ⟨by simp, rfl⟩
      · have h6 := hmem q' nn hq
        refine ⟨?_, h6.2⟩
        rw [hlen]
        exact Nat.lt_of_lt_of_le h6.1 (by omega)

/-- Claim C2 (counterexample): in the TTS-class path the code has no
zero-audio check — the `received` check of lines 239-241 exists only in the
loader path.  With every synthesis call returning a zero-length buffer, the
empty buffer is padded and played (`afplayCall 1 [0] 4` is in the trace),
the run goes on to chunk 2 (`Generating 2/3` is reported), and the whole run
exits 0 instead of halting with a failure code. -/
theorem c2_counterexample :
    envC2tts.ttsAudio 1 = [] ∧
    (inprocess_stream envC2tts txtThree).1 = Res.ret 0 ∧
    Ev.msg (Msg.generating 2 3) ∈ (inprocess_stream envC2tts txtThree).2 ∧
    Ev.afplayCall 1 [0] 4 ∈ (inprocess_stream envC2tts txtThree).2 := by
  decide

/-- Claim C2 (amended): a chunk whose synthesis raises halts the run with
exit code 5 on every path, without attempting any subsequent chunk, and the
side channel reports the failing 1-based chunk index as the last generating
line; a zero-audio result is additionally detected in the loader path.
Three conjuncts cover the paths: the loader path without pygame (synthesis
raise or zero audio on any reachable chunk i), the loader path with pygame
(chunk 1 — the only chunk whose synthesis can ever run in that mode), and
the TTS-class path (synthesis raise on any reachable chunk i).  In the
TTS-class path a zero-length buffer is not a failure (see the
counterexample). -/
theorem c2_amended (env : Env) (text : List Char) (i : Nat) :
    (env.sfNumpyOk = true → env.hasTTSClass = false → env.hasLoader = true →
      env.loadOk = true → env.pygameOk = false →
      (∀ j, 1 ≤ j → j < i → paraGood env j) →
      ((env.gen i).raises = true ∨ (env.gen i).subs = []) →
      1 ≤ i → i ≤ (paraSplit text).length →
      (inprocess_stream env text).1 = Res.ret 5 ∧
      ∃ pre,
        ((inprocess_stream env text).2 =
          pre ++ [Ev.msg (Msg.generating i (paraSplit text).length),
            Ev.msg (if (env.gen i).raises then Msg.errGenFailed
              else Msg.errNoAudio)]) ∧
        ∀ q nn,
          Ev.msg (Msg.generating q nn) ∈ (inprocess_stream env text).2 →
          q ≤ i ∧ nn = (paraSplit text).length) ∧
    (env.sfNumpyOk = true → env.hasTTSClass = false → env.hasLoader = true →
      env.loadOk = true → env.pygameOk = true →
      ((env.gen 1).raises = true ∨ (env.gen 1).subs = []) →
      1 ≤ (paraSplit text).length →
      (inprocess_stream env text).1 = Res.ret 5 ∧
      Ev.msg (Msg.generating 1 (paraSplit text).length) ∈
        (inprocess_stream env text).2 ∧
      ∀ q nn, Ev.msg (Msg.generating q nn) ∈ (inprocess_stream env text).2 →
        q = 1 ∧ nn = (paraSplit text).length) ∧
    (env.sfNumpyOk = true → env.hasTTSClass = true → env.loadOk = true →
      (∀ j, 1 ≤ j → j < i → paraGoodTts env j) →
      env.ttsCallOk i = false →
      1 ≤ i → i ≤ (paraSplit text).length →
      (inprocess_stream env text).1 = Res.ret 5 ∧
      (∃ pre, (inprocess_stream env text).2 =
        pre ++ [Ev.msg (Msg.generating i (paraSplit text).length),
          Ev.msg Msg.errGenFailed]) ∧
      ∀ q nn, Ev.msg (Msg.generating q nn) ∈ (inprocess_stream env text).2 →
        q ≤ i ∧ nn = (paraSplit text).length) := by
  refine ⟨?_, ?_, ?_⟩
  · intro hdeps htc hld hlo hpg hgood hfail hi1 hin
    exact c2_generation_failure_halts env text i hdeps htc hld hlo hpg hgood
      hfail hi1 hin
  · intro hdeps htc hld hlo hpg hfail hlen
    have hpe : (paraSplit text).isEmpty = false := by
      cases hq : paraSplit text
      · rw [hq] at hlen; simp at hlen
      · rfl
    have hmain1 : (inprocess_stream env text).1 =
        (streamLoop env Mode.modelObj (paraSplit text).length 1
          ⟨22050, none⟩ (paraSplit text)).1 := by
      simp [inprocess_stream, hdeps, htc, hld, hlo, hpe]
    have hmain2 : (inprocess_stream env text).2 =
        Ev.loadAttempt ::
          (streamLoop env Mode.modelObj (paraSplit text).length 1
            ⟨22050, none⟩ (paraSplit text)).2 := by
      simp [inprocess_stream, hdeps, htc, hld, hlo, hpe]
    obtain ⟨p, rest, hpr⟩ : ∃ p rest, paraSplit text = p :: rest := by
      cases hq : paraSplit text with
      | nil => rw [hq] at hpe; simp at hpe
      | cons a b => exact ⟨a, b, rfl⟩
    have h2 := processPara_pg_fail_code env (p :: rest).length 1
      ⟨22050, none⟩ hpg rfl hfail
    have hloop1 : (streamLoop env Mode.modelObj (p :: rest).length 1
        ⟨22050, none⟩ (p :: rest)).1 = Res.ret 5 := by
      simp only [streamLoop]
      rw [h2]
    have hloop2 : (streamLoop env Mode.modelObj (p :: rest).length 1
        ⟨22050, none⟩ (p :: rest)).2 =
        (processPara env Mode.modelObj (p :: rest).length 1
          ⟨22050, none⟩).1 := by
      simp only [streamLoop]
      rw [h2]
    refine ⟨?_, ?_, ?_⟩
    · rw [hmain1, hpr, hloop1]
    · rw [hmain2, hpr, hloop2]
      exact List.mem_cons_of_mem _
        (processPara_has_gen env Mode.modelObj (p :: rest).length 1
          ⟨22050, none⟩)
    · intro q nn hq
      rw [hmain2, hpr, hloop2] at hq
      rw [hpr]
      rcases List.mem_cons.mp hq with heq | hq
      · exact absurd heq (by simp)
      · exact processPara_gen_msgs env Mode.modelObj (p :: rest).length 1
          ⟨22050, none⟩ q nn hq
  · intro hdeps htc hlo hgood hfail hi1 hin
    have hlen0 : 0 < (paraSplit text).length := lt_of_lt_of_le hi1 hin
    have hpe : (paraSplit text).isEmpty = false := by
      cases hq : paraSplit text
      · rw [hq] at hlen0; simp at hlen0
      · rfl
    have hi1' : i - 1 < (paraSplit text).length := by omega
    have hdecomp : paraSplit text =
        (paraSplit text).take (i - 1) ++
          (paraSplit text).get ⟨i - 1, hi1'⟩ :: (paraSplit text).drop i := by
      have h1 := List.take_append_drop (i - 1) (paraSplit text)
      have h2 := List.drop_eq_getElem_cons hi1'
      have h3 : i - 1 + 1 = i := by omega
      rw [h3] at h2
      rw [h2] at h1
      exact h1.symm
    have htk : ((paraSplit text).take (i - 1)).length = i - 1 := by
      simp [List.length_take]
      omega
    have hkl : 1 + ((paraSplit text).take (i - 1)).length = i := by
      rw [htk]
      omega
    obtain ⟨pre, hloop, hmem⟩ := streamLoop_fail_tts env
      (paraSplit text).length ((paraSplit text).take (i - 1))
      ((paraSplit text).get ⟨i - 1, hi1'⟩) ((paraSplit text).drop i) 1
      ⟨if env.ttsHasRate then env.ttsRate else 22050, none⟩
      (fun m hm => hgood (1 + m) (by omega) (by rw [htk] at hm; omega))
      (by rw [hkl]; exact hfail)
    rw [hkl] at hloop hmem
    rw [← hdecomp] at hloop
    have hmain1 : (inprocess_stream env text).1 =
        (streamLoop env Mode.ttsClass (paraSplit text).length 1
          ⟨if env.ttsHasRate then env.ttsRate else 22050, none⟩
          (paraSplit text)).1 := by
      simp [inprocess_stream, hdeps, htc, hlo, hpe]
    have hmain2 : (inprocess_stream env text).2 =
        Ev.loadAttempt ::
          (streamLoop env Mode.ttsClass (paraSplit text).length 1
            ⟨if env.ttsHasRate then env.ttsRate else 22050, none⟩
            (paraSplit text)).2 := by
      simp [inprocess_stream, hdeps, htc, hlo, hpe]
    refine ⟨?_, ⟨Ev.loadAttempt :: pre, ?_⟩, ?_⟩
    · rw [hmain1, hloop]
    · rw [hmain2, hloop]
      rfl
    · intro q nn hq
      rw [hmain2, hloop] at hq
      rcases List.mem_cons.mp hq with heq | hq
      · exact absurd heq (by simp)
      · rcases List.mem_append.mp hq with hq | hq
        · have h7 := hmem q nn hq
          exact ⟨le_of_lt h7.1, h7.2⟩
        · simp at hq
          obtain ⟨rfl, rfl⟩ := hq
          exact ⟨le_refl _, rfl⟩

theorem c2_amended_witness :
    ((inprocess_stream envGenRaises txtHi).1 = Res.ret 5 ∧
      ∃ pre,
        ((inprocess_stream envGenRaises txtHi).2 =
          pre ++ [Ev.msg (Msg.generating 1 (paraSplit txtHi).length),
            Ev.msg (if (envGenRaises.gen 1).raises then Msg.errGenFailed
              else Msg.errNoAudio)]) ∧
        ∀ q nn,
          Ev.msg (Msg.generating q nn) ∈
            (inprocess_stream envGenRaises txtHi).2 →
          q ≤ 1 ∧ nn = (paraSplit txtHi).length) ∧
    ((inprocess_stream envC2pg txtHi).1 = Res.ret 5 ∧
      Ev.msg (Msg.generating 1 (paraSplit txtHi).length) ∈
        (inprocess_stream envC2pg txtHi).2 ∧
      ∀ q nn,
        Ev.msg (Msg.generating q nn) ∈ (inprocess_stream envC2pg txtHi).2 →
        q = 1 ∧ nn = (paraSplit txtHi).length) ∧
    ((inprocess_stream envC2ttsFail txtHi).1 = Res.ret 5 ∧
      (∃ pre, (inprocess_stream envC2ttsFail txtHi).2 =
        pre ++ [Ev.msg (Msg.generating 1 (paraSplit txtHi).length),
          Ev.msg Msg.errGenFailed]) ∧
      ∀ q nn,
        Ev.msg (Msg.generating q nn) ∈
          (inprocess_stream envC2ttsFail txtHi).2 →
        q ≤ 1 ∧ nn = (paraSplit txtHi).length) :=
  ⟨(c2_amended envGenRaises txtHi 1).1 (by decide) (by decide) (by decide)
      (by decide) (by decide)
      (fun _ h1 h2 => absurd (lt_of_le_of_lt h1 h2) (lt_irrefl 1))
      (Or.inl (by decide)) (by decide) (by decide),
   (c2_amended envC2pg txtHi 1).2.1 (by decide) (by decide) (by decide)
      (by decide) (by decide) (Or.inl (by decide)) (by decide),
   (c2_amended envC2ttsFail txtHi 1).2.2 (by decide) (by decide) (by decide)
      (fun _ h1 h2 => absurd (lt_of_le_of_lt h1 h2) (lt_irrefl 1))
      (by decide) (by decide) (by decide)⟩

end ReaderElf
